import Mathlib

/-!
# SHT1x driver: protocol engine and calibration engine

A shallow embedding of `src/SHT1x/SHT1x.cpp`.

* The Arduino primitives (`pinMode`, `digitalWrite`, `digitalRead`,
  `delayMicroseconds`, `delay`, `millis`) act on an explicit `World`: the sensor
  is a script giving the level of the data line at each `digitalRead`, the clock
  is a millisecond count advanced by `delay`, and every call is appended to a
  trace of pin events.
* `uint8_t`, `uint16_t` and `unsigned long` values are natural numbers reduced
  modulo `2^8`, `2^16` and `2^32` where the C code truncates.
* `float`/`double` values are exact rationals, with `NAN` as a separate value.
* The `while` loop of `waitForResultSHT` is run with fuel.
-/

namespace SHT1x

/-! ## Arduino environment -/

/-- Logic level `LOW` of the Arduino API. -/
abbrev LOW : Nat := 0

/-- Logic level `HIGH` of the Arduino API. -/
abbrev HIGH : Nat := 1

/-- Pin modes of the Arduino API. -/
inductive PinMode where
  | INPUT
  | OUTPUT
  | INPUT_PULLUP
  deriving DecidableEq, Repr

/-- One call of an Arduino primitive, with its arguments and, for the two
primitives that return something, the value returned. -/
inductive Event where
  | pinMode (pin : Nat) (mode : PinMode)
  | digitalWrite (pin : Nat) (val : Nat)
  | digitalRead (pin : Nat) (val : Nat)
  | delayMicroseconds (us : Nat)
  | delay (ms : Nat)
  | millis (val : Nat)
  deriving DecidableEq, Repr

/-- The world outside the driver.

* `sensor k` is the level of the data line at the `k`-th `digitalRead`
  (`true` is HIGH), `reads` counts the samples taken so far;
* `now` is the time in milliseconds, `pace k` is the time the `k`-th call of
  `delay` really takes, `delays` counts the calls of `delay` so far;
* `trace` lists the calls made so far, oldest first. -/
structure World where
  sensor : Nat → Bool
  reads : Nat
  now : Nat
  pace : Nat → Nat
  delays : Nat
  trace : List Event

/-- Arduino `pinMode(pin, mode)`. -/
def pinMode (pin : Nat) (mode : PinMode) (w : World) : World :=
  { w with trace := w.trace ++ [Event.pinMode pin mode] }

/-- Arduino `digitalWrite(pin, val)`. -/
def digitalWrite (pin : Nat) (val : Nat) (w : World) : World :=
  { w with trace := w.trace ++ [Event.digitalWrite pin val] }

/-- Arduino `digitalRead(pin)`: the next level of the sensor script, as the
`int` value `HIGH` or `LOW`. -/
def digitalRead (pin : Nat) (w : World) : Nat × World :=
  let val := if w.sensor w.reads then HIGH else LOW
  (val, { w with reads := w.reads + 1, trace := w.trace ++ [Event.digitalRead pin val] })

/-- Arduino `delayMicroseconds(us)`. -/
def delayMicroseconds (us : Nat) (w : World) : World :=
  { w with trace := w.trace ++ [Event.delayMicroseconds us] }

/-- Arduino `delay(ms)`: the clock advances by what this call really takes. -/
def delay (ms : Nat) (w : World) : World :=
  { w with now := w.now + w.pace w.delays, delays := w.delays + 1,
           trace := w.trace ++ [Event.delay ms] }

/-- Arduino `millis()`: the millisecond count as an `unsigned long` of 32 bits. -/
def millis (w : World) : Nat × World :=
  let val := w.now % 2 ^ 32
  (val, { w with trace := w.trace ++ [Event.millis val] })

/-- The loop `for (uint8_t i = i0; i < i0 + n; ++i) body`. -/
def forLoop {σ : Type} (body : Nat → σ → σ) : Nat → Nat → σ → σ
  | 0, _, s => s
  | n + 1, i, s => forLoop body n (i + 1) (body i s)

/-! ## Declarations of `SHT1x.h` -/

/-- Modelled from the spec: `enum class ShtCommand` of `SHT1x.h`, which is not
among the sources; the spec gives its two values. -/
inductive ShtCommand where
  | MeasureTemperature
  | MeasureRelativeHumidity
  deriving DecidableEq, Repr

/-- Modelled from the spec: `enum class Voltage` of `SHT1x.h`, which is not
among the sources; the spec gives six supply-voltage classes, used as the
indices 0..5 of the offset tables. -/
inductive Voltage where
  | level0
  | level1
  | level2
  | level3
  | level4
  | level5
  deriving DecidableEq, Repr

/-- Modelled from the spec: `enum class TemperatureMeasurementResolution` of
`SHT1x.h`, which is not among the sources: 14-bit (index 0) and 12-bit
(index 1). -/
inductive TemperatureMeasurementResolution where
  | Temperature_14bit
  | Temperature_12bit
  deriving DecidableEq, Repr

/-- Modelled from the spec: `enum class HumidityMeasurementResolution` of
`SHT1x.h`, which is not among the sources: 12-bit (index 0) and 8-bit
(index 1). -/
inductive HumidityMeasurementResolution where
  | Humidity_12bit
  | Humidity_8bit
  deriving DecidableEq, Repr

/-- The value `static_cast<uint8_t>(voltage)`. -/
def Voltage.toUInt8 : Voltage → Nat
  | .level0 => 0
  | .level1 => 1
  | .level2 => 2
  | .level3 => 3
  | .level4 => 4
  | .level5 => 5

/-- The value `static_cast<uint8_t>(resolution)`. -/
def TemperatureMeasurementResolution.toUInt8 : TemperatureMeasurementResolution → Nat
  | .Temperature_14bit => 0
  | .Temperature_12bit => 1

/-- The value `static_cast<uint8_t>(resolution)`. -/
def HumidityMeasurementResolution.toUInt8 : HumidityMeasurementResolution → Nat
  | .Humidity_12bit => 0
  | .Humidity_8bit => 1

/-- Modelled from the spec: the constants of `SHT1x.h`, which is not among the
sources and whose values the spec does not give: the `uint16_t` error sentinel
`kRawDataError` and the 8-bit wire code of each command. They are parameters of
the embedding. -/
structure Header where
  kRawDataError : Nat
  commandCode : ShtCommand → Nat

/-- The device handle `class SHT1x`: its five data members. -/
structure Device where
  _dataPin : Nat
  _clockPin : Nat
  _voltage : Voltage
  _tempResolution : TemperatureMeasurementResolution
  _humidityResolution : HumidityMeasurementResolution

/-- The constructor `SHT1x::SHT1x(dataPin, clockPin, voltage)`. -/
def Device.new (dataPin clockPin : Nat) (voltage : Voltage) : Device :=
  { _dataPin := dataPin, _clockPin := clockPin, _voltage := voltage,
    _tempResolution := .Temperature_14bit,
    _humidityResolution := .Humidity_12bit }

/-- A value of type `float` or `double`, in exact arithmetic: `NAN` or a
rational number. -/
inductive Flt where
  | NAN
  | num (q : ℚ)
  deriving DecidableEq

/-! ## Coefficient tables -/

/-- `SHT1x::getC1`. -/
def getC1 (resolution : HumidityMeasurementResolution) : ℚ :=
  let VALUES : List ℚ := [-2.0468, -2.0468]
  VALUES.getD resolution.toUInt8 0

/-- `SHT1x::getC2`. -/
def getC2 (resolution : HumidityMeasurementResolution) : ℚ :=
  let VALUES : List ℚ := [0.0367, 0.5872]
  VALUES.getD resolution.toUInt8 0

/-- `SHT1x::getC3`. -/
def getC3 (resolution : HumidityMeasurementResolution) : ℚ :=
  let VALUES : List ℚ := [-1.5955e-6, -4.0845e-4]
  VALUES.getD resolution.toUInt8 0

/-- `SHT1x::getT1`. -/
def getT1 (resolution : HumidityMeasurementResolution) : ℚ :=
  let VALUES : List ℚ := [0.01, 0.01]
  VALUES.getD resolution.toUInt8 0

/-- `SHT1x::getT2`. -/
def getT2 (resolution : HumidityMeasurementResolution) : ℚ :=
  let VALUES : List ℚ := [0.00008, 0.00128]
  VALUES.getD resolution.toUInt8 0

/-- `SHT1x::getD1ForC`. -/
def getD1ForC (voltage : Voltage) : ℚ :=
  let VALUES : List ℚ := [-40.1, -39.8, -39.7, -39.66, -39.6, -39.4]
  VALUES.getD voltage.toUInt8 0

/-- `SHT1x::getD1ForF`. -/
def getD1ForF (voltage : Voltage) : ℚ :=
  let VALUES : List ℚ := [-40.2, -39.6, -39.5, -39.42, -39.3, -38.9]
  VALUES.getD voltage.toUInt8 0

/-- `SHT1x::getD2ForC`. -/
def getD2ForC (resolution : TemperatureMeasurementResolution) : ℚ :=
  let VALUES : List ℚ := [0.01, 0.04]
  VALUES.getD resolution.toUInt8 0

/-- `SHT1x::getD2ForF`. -/
def getD2ForF (resolution : TemperatureMeasurementResolution) : ℚ :=
  let VALUES : List ℚ := [0.018, 0.072]
  VALUES.getD resolution.toUInt8 0

/-! ## Protocol engine -/

/-- `SHT1x::controlDataPin`: release the data line (pull-up) for a nonzero
`val`, drive it low otherwise. -/
def controlDataPin (dataPin : Nat) (val : Nat) (w : World) : World :=
  if val ≠ 0 then
    pinMode dataPin PinMode.INPUT_PULLUP w
  else
    let w := digitalWrite dataPin LOW w
    pinMode dataPin PinMode.OUTPUT w

/-- The value `!!(static_cast<uint8_t>(command) & (1 << (7 - i)))`. -/
def commandBit (command : Nat) (i : Nat) : Nat :=
  if (command % 256) &&& (1 <<< (7 - i)) ≠ 0 then 1 else 0

/-- `SHT1x::sendCommandSHT`, with `command` the integer value of the command. -/
def sendCommandSHT (command : Nat) (dataPin clockPin : Nat) (w : World) : Bool × World :=
  let w := pinMode clockPin PinMode.OUTPUT w
  let w := controlDataPin dataPin HIGH w
  let w := delayMicroseconds 1 w
  let w := digitalWrite clockPin HIGH w
  let w := controlDataPin dataPin LOW w
  let w := delayMicroseconds 1 w
  let w := digitalWrite clockPin LOW w
  let w := delayMicroseconds 1 w
  let w := digitalWrite clockPin HIGH w
  let w := controlDataPin dataPin HIGH w
  let w := delayMicroseconds 1 w
  let w := digitalWrite clockPin LOW w
  let w := delayMicroseconds 1 w
  let w := forLoop (fun i w =>
    let w := controlDataPin dataPin (commandBit command i) w
    let w := digitalWrite clockPin HIGH w
    let w := delayMicroseconds 1 w
    let w := digitalWrite clockPin LOW w
    delayMicroseconds 1 w) 8 0 w
  let w := pinMode dataPin PinMode.INPUT w
  let w := digitalWrite clockPin HIGH w
  let w := delayMicroseconds 1 w
  let (ack, w) := digitalRead dataPin w
  if ack ≠ LOW then (false, w) else
  let w := digitalWrite clockPin LOW w
  let w := delayMicroseconds 10 w
  let (ack, w) := digitalRead dataPin w
  if ack ≠ HIGH then (false, w) else
  (true, w)

/-- The loop `while (ack == HIGH) { delay(10); ack = digitalRead(dataPin);
if ((millis() - startWait) > 1000) break; }` of `waitForResultSHT`; the
subtraction is that of `unsigned long`. One unit of fuel is spent on each
evaluation of the loop condition. -/
def waitLoop (dataPin : Nat) (startWait : Nat) : Nat → Nat → World → Option (Nat × World)
  | 0, _, _ => none
  | fuel + 1, ack, w =>
    if ack = HIGH then
      let w := delay 10 w
      let (ack, w) := digitalRead dataPin w
      let (m, w) := millis w
      if (m + 2 ^ 32 - startWait) % 2 ^ 32 > 1000 then some (ack, w)
      else waitLoop dataPin startWait fuel ack w
    else some (ack, w)

/-- `SHT1x::waitForResultSHT`. -/
def waitForResultSHT (fuel : Nat) (dataPin : Nat) (w : World) : Option (Bool × World) :=
  let w := pinMode dataPin PinMode.INPUT w
  let ack := HIGH
  let (startWait, w) := millis w
  match waitLoop dataPin startWait fuel ack w with
  | none => none
  | some (ack, w) => some (decide (ack ≠ HIGH), w)

/-- Body of the two shift-in loops of `getData16SHT`: one clock pulse with a
sample while the clock is high, `byte |= digitalRead(dataPin) << (7 - i)` on a
`uint8_t`. -/
def shiftInBit (dataPin clockPin : Nat) (i : Nat) (s : Nat × World) : Nat × World :=
  let (byte, w) := s
  let w := digitalWrite clockPin HIGH w
  let w := delayMicroseconds 1 w
  let (bit, w) := digitalRead dataPin w
  let byte := (byte ||| (bit <<< (7 - i))) % 256
  let w := digitalWrite clockPin LOW w
  let w := delayMicroseconds 1 w
  (byte, w)

/-- `SHT1x::getData16SHT`. -/
def getData16SHT (dataPin clockPin : Nat) (w : World) : Nat × World :=
  let (rawData0, w) := forLoop (shiftInBit dataPin clockPin) 8 0 (0, w)
  let w := controlDataPin dataPin LOW w
  let w := digitalWrite clockPin HIGH w
  let w := delayMicroseconds 1 w
  let w := digitalWrite clockPin LOW w
  let w := pinMode dataPin PinMode.INPUT w
  let (rawData1, w) := forLoop (shiftInBit dataPin clockPin) 8 0 (0, w)
  (((rawData0 <<< 8) ||| rawData1) % 65536, w)

/-- `SHT1x::skipCrcSHT`. -/
def skipCrcSHT (dataPin clockPin : Nat) (w : World) : World :=
  let w := controlDataPin dataPin HIGH w
  let w := digitalWrite clockPin HIGH w
  digitalWrite clockPin LOW w

/-- `SHT1x::readRawData`. -/
def readRawData (hdr : Header) (fuel : Nat) (command : ShtCommand) (dataPin clockPin : Nat)
    (w : World) : Option (Nat × World) :=
  match sendCommandSHT (hdr.commandCode command) dataPin clockPin w with
  | (false, w) => some (hdr.kRawDataError, w)
  | (true, w) =>
    match waitForResultSHT fuel dataPin w with
    | none => none
    | some (false, w) => some (hdr.kRawDataError, w)
    | some (true, w) =>
      let (result, w) := getData16SHT dataPin clockPin w
      let w := skipCrcSHT dataPin clockPin w
      some (result, w)

/-! ## Public read operations -/

/-- `SHT1x::readTemperatureC`. -/
def readTemperatureC (hdr : Header) (fuel : Nat) (dev : Device) (w : World) :
    Option (Flt × World) :=
  let D1 := getD1ForC dev._voltage
  let D2 := getD2ForC dev._tempResolution
  match readRawData hdr fuel ShtCommand.MeasureTemperature dev._dataPin dev._clockPin w with
  | none => none
  | some (rawData, w) =>
    if rawData = hdr.kRawDataError then some (Flt.NAN, w)
    else some (Flt.num (D1 + D2 * rawData), w)

/-- `SHT1x::readTemperatureF`. -/
def readTemperatureF (hdr : Header) (fuel : Nat) (dev : Device) (w : World) :
    Option (Flt × World) :=
  let D1 := getD1ForF dev._voltage
  let D2 := getD2ForF dev._tempResolution
  match readRawData hdr fuel ShtCommand.MeasureTemperature dev._dataPin dev._clockPin w with
  | none => none
  | some (rawData, w) =>
    if rawData = hdr.kRawDataError then some (Flt.NAN, w)
    else some (Flt.num (D1 + D2 * rawData), w)

/-- `SHT1x::readHumidity`. The test `isnan(temperature)` is the case `Flt.NAN` of
the result of `readTemperatureC`. -/
def readHumidity (hdr : Header) (fuel : Nat) (dev : Device) (w : World) :
    Option (Flt × World) :=
  let C1 := getC1 dev._humidityResolution
  let C2 := getC2 dev._humidityResolution
  let C3 := getC3 dev._humidityResolution
  let T1 := getT1 dev._humidityResolution
  let T2 := getT2 dev._humidityResolution
  match readRawData hdr fuel ShtCommand.MeasureRelativeHumidity dev._dataPin dev._clockPin w with
  | none => none
  | some (rawData, w) =>
    if rawData = hdr.kRawDataError then some (Flt.NAN, w)
    else
      let linearHumidity : ℚ := C1 + C2 * rawData + C3 * rawData * rawData
      match readTemperatureC hdr fuel dev w with
      | none => none
      | some (Flt.NAN, w) => some (Flt.NAN, w)
      | some (Flt.num temperature, w) =>
        some (Flt.num ((temperature - 25.0) * (T1 + T2 * rawData) + linearHumidity), w)

/-! ## Auxiliary definitions for the proofs -/

/-- The world without its trace. -/
structure Env where
  sensor : Nat → Bool
  reads : Nat
  now : Nat
  pace : Nat → Nat
  delays : Nat

/-- The world without its trace. -/
def World.env (w : World) : Env :=
  { sensor := w.sensor, reads := w.reads, now := w.now, pace := w.pace, delays := w.delays }

/-- The part of `sendCommandSHT` before the first sample of the data line:
transmission start and the eight command bits. -/
def sendCommandSHT_upToAck (command dataPin clockPin : Nat) (w : World) : World :=
  let w := pinMode clockPin PinMode.OUTPUT w
  let w := controlDataPin dataPin HIGH w
  let w := delayMicroseconds 1 w
  let w := digitalWrite clockPin HIGH w
  let w := controlDataPin dataPin LOW w
  let w := delayMicroseconds 1 w
  let w := digitalWrite clockPin LOW w
  let w := delayMicroseconds 1 w
  let w := digitalWrite clockPin HIGH w
  let w := controlDataPin dataPin HIGH w
  let w := delayMicroseconds 1 w
  let w := digitalWrite clockPin LOW w
  let w := delayMicroseconds 1 w
  let w := forLoop (fun i w =>
    let w := controlDataPin dataPin (commandBit command i) w
    let w := digitalWrite clockPin HIGH w
    let w := delayMicroseconds 1 w
    let w := digitalWrite clockPin LOW w
    delayMicroseconds 1 w) 8 0 w
  let w := pinMode dataPin PinMode.INPUT w
  let w := digitalWrite clockPin HIGH w
  delayMicroseconds 1 w

/-- The byte assembled by `n` rounds of `byte |= bit << (7 - i)`, from round `i`
on, the bits being the levels `sensor r`, `sensor (r + 1)`, ... -/
def assembleByte (sensor : Nat → Bool) : Nat → Nat → Nat → Nat → Nat
  | 0, _, _, byte => byte
  | n + 1, r, i, byte =>
    assembleByte sensor n (r + 1) (i + 1)
      ((byte ||| ((if sensor r then 1 else 0) <<< (7 - i))) % 256)

/-- The 16-bit word spelled by sixteen successive levels of the data line, the
first one being the most significant bit: the sum of `b_i * 2^(15 - i)`. -/
def word16 (sensor : Nat → Bool) (r : Nat) : Nat :=
  ∑ i in Finset.range 16, (if sensor (r + i) then 1 else 0) * 2 ^ (15 - i)

/-- The world after one round of the polling loop of `waitForResultSHT`. -/
def pollStep (dataPin : Nat) (w : World) : World :=
  (millis (digitalRead dataPin (delay 10 w)).2).2

/-- Time taken by the next `n` calls of `delay`. -/
def elapsedAfter (w : World) (n : Nat) : Nat :=
  ∑ k in Finset.range n, w.pace (w.delays + k)

/-! ## Concrete inputs for the examples -/

/-- A header for the examples: sentinel `0xFFFF`, command codes 3 and 5. -/
def demoHeader : Header :=
  { kRawDataError := 65535,
    commandCode := fun c =>
      match c with
      | .MeasureTemperature => 3
      | .MeasureRelativeHumidity => 5 }

/-- A device for the examples: data pin 2, clock pin 3, third voltage class. -/
def demoDevice : Device := Device.new 2 3 Voltage.level2

/-- A world for the examples: the data line follows `script` and is HIGH
(pulled up) afterwards; every `delay` takes 10 ms. -/
def demoWorld (script : List Bool) : World :=
  { sensor := fun k => script.getD k true, reads := 0, now := 0, pace := fun _ => 10,
    delays := 0, trace := [] }

/-- A good exchange: acknowledgment (LOW then HIGH), result ready at the first
poll, then the word `0x1234`. -/
def scriptWord : List Bool :=
  [false, true, false,
   false, false, false, true, false, false, true, false,
   false, false, true, true, false, true, false, false]

/-- A good exchange in which the sensor shifts out sixteen HIGH bits. -/
def scriptOnes : List Bool :=
  [false, true, false,
   true, true, true, true, true, true, true, true,
   true, true, true, true, true, true, true, true]

/-- Two good exchanges in a row: the words `0x0640` and `0x1234`. -/
def scriptTwoWords : List Bool :=
  [false, true, false,
   false, false, false, false, false, true, true, false,
   false, true, false, false, false, false, false, false,
   false, true, false,
   false, false, false, true, false, false, true, false,
   false, false, true, true, false, true, false, false]

/-- A good exchange with the word `0x0640`, after which the sensor no longer
answers. -/
def scriptWordThenSilence : List Bool :=
  [false, true, false,
   false, false, false, false, false, true, true, false,
   false, true, false, false, false, false, false, false]

/-- The world in which an operation that ran on `w` and returned leaves off. -/
def worldAfter {α : Type} (r : Option (α × World)) (w : World) : World :=
  match r with
  | none => w
  | some p => p.2

/-- A world in which the sensor acknowledges a command, signals at the first
poll that the result is ready and shifts out the sixteen bits of `R`, most
significant bit first; every `delay` takes 10 ms. -/
def wordWorld (R : Nat) : World :=
  { sensor := fun i =>
      if i = 0 then false else if i = 1 then true else if i = 2 then false
      else decide (R / 2 ^ (18 - i) % 2 = 1),
    reads := 0, now := 0, pace := fun _ => 10, delays := 0, trace := [] }

/-- A world in which the data line stays HIGH and every `delay` takes 10 ms,
except the 101st, which takes `2^32 - 1000` ms. -/
def longDelayWorld : World :=
  { sensor := fun _ => true, reads := 0, now := 0,
    pace := fun k => if k = 100 then 2 ^ 32 - 1000 else 10, delays := 0, trace := [] }

/-- The world of the examples in which the sensor has acknowledged the
temperature command and signalled that the result is ready, and is about to
shift out `0x1234`. -/
def demoReady : World :=
  worldAfter (waitForResultSHT 5 2 (sendCommandSHT 3 2 3 (demoWorld scriptWord)).2)
    (demoWorld [])

/-! ## Events issued by the operations -/

/-- Events of `controlDataPin(dataPin, val)`: the data line is released (pulled
up) for a nonzero `val`, driven low otherwise. -/
def dataLineEvents (dataPin val : Nat) : List Event :=
  if val ≠ 0 then [Event.pinMode dataPin PinMode.INPUT_PULLUP]
  else [Event.digitalWrite dataPin LOW, Event.pinMode dataPin PinMode.OUTPUT]

/-- Events of the transmission-start sequence of `sendCommandSHT`. -/
def transmissionStart (dataPin clockPin : Nat) : List Event :=
  [Event.pinMode clockPin PinMode.OUTPUT,
   Event.pinMode dataPin PinMode.INPUT_PULLUP, Event.delayMicroseconds 1,
   Event.digitalWrite clockPin HIGH,
   Event.digitalWrite dataPin LOW, Event.pinMode dataPin PinMode.OUTPUT,
   Event.delayMicroseconds 1,
   Event.digitalWrite clockPin LOW, Event.delayMicroseconds 1,
   Event.digitalWrite clockPin HIGH,
   Event.pinMode dataPin PinMode.INPUT_PULLUP, Event.delayMicroseconds 1,
   Event.digitalWrite clockPin LOW, Event.delayMicroseconds 1]

/-- Events of `n` rounds of the command-bit loop of `sendCommandSHT`, from round
`i` on. -/
def commandBitEvents (command dataPin clockPin : Nat) : Nat → Nat → List Event
  | 0, _ => []
  | n + 1, i =>
    dataLineEvents dataPin (commandBit command i) ++
      [Event.digitalWrite clockPin HIGH, Event.delayMicroseconds 1,
       Event.digitalWrite clockPin LOW, Event.delayMicroseconds 1] ++
      commandBitEvents command dataPin clockPin n (i + 1)

/-- Events of the acknowledgment phase of `sendCommandSHT`, `s0` and `s1` being
the levels of the data line at its two samples (the second one is not taken
when the first is HIGH). -/
def ackEvents (dataPin clockPin : Nat) (s0 s1 : Bool) : List Event :=
  [Event.pinMode dataPin PinMode.INPUT, Event.digitalWrite clockPin HIGH,
   Event.delayMicroseconds 1] ++
  (if s0 then [Event.digitalRead dataPin HIGH]
   else [Event.digitalRead dataPin LOW, Event.digitalWrite clockPin LOW,
     Event.delayMicroseconds 10, Event.digitalRead dataPin (if s1 then HIGH else LOW)])

/-- Events of `n` rounds of a shift-in loop of `getData16SHT`, the samples being
the levels `sensor r`, `sensor (r + 1)`, ... -/
def sampleEvents (dataPin clockPin : Nat) (sensor : Nat → Bool) : Nat → Nat → List Event
  | 0, _ => []
  | n + 1, r =>
    [Event.digitalWrite clockPin HIGH, Event.delayMicroseconds 1,
     Event.digitalRead dataPin (if sensor r then HIGH else LOW),
     Event.digitalWrite clockPin LOW, Event.delayMicroseconds 1] ++
      sampleEvents dataPin clockPin sensor n (r + 1)

/-- Events of `getData16SHT` between its two shift-in loops: the data line is
driven low, the clock is pulsed once, the data pin is made an input again. -/
def interByteEvents (dataPin clockPin : Nat) : List Event :=
  [Event.digitalWrite dataPin LOW, Event.pinMode dataPin PinMode.OUTPUT,
   Event.digitalWrite clockPin HIGH, Event.delayMicroseconds 1,
   Event.digitalWrite clockPin LOW, Event.pinMode dataPin PinMode.INPUT]

/-- Events of `skipCrcSHT`. -/
def skipCrcEvents (dataPin clockPin : Nat) : List Event :=
  [Event.pinMode dataPin PinMode.INPUT_PULLUP, Event.digitalWrite clockPin HIGH,
   Event.digitalWrite clockPin LOW]

/-- An event of the polling loop of `waitForResultSHT`: a `delay`, a sample of
the data pin or a call of `millis`. -/
def isPollEvent (dataPin : Nat) : Event → Bool
  | Event.delay _ => true
  | Event.millis _ => true
  | Event.digitalRead pin _ => decide (pin = dataPin)
  | _ => false

/-- The events a run from world `w` to world `w'` has added to the trace. -/
def newEvents (w w' : World) : List Event :=
  w'.trace.drop w.trace.length

/-- A pin event: a call of `pinMode`, `digitalWrite` or `digitalRead`, as
opposed to a delay or a reading of the clock. -/
def isPinEvent : Event → Bool
  | Event.pinMode _ _ => true
  | Event.digitalWrite _ _ => true
  | Event.digitalRead _ _ => true
  | _ => false

/-- A sample of the data line: a call of `digitalRead`. -/
def isSample : Event → Bool
  | Event.digitalRead _ _ => true
  | _ => false

/-! ## Properties of a list of events -/

/-- The mode most recently set on `pin` after `events`, `mode` being the mode
before them. -/
def modeAfter (pin : Nat) (mode : Option PinMode) : List Event → Option PinMode
  | [] => mode
  | Event.pinMode p m :: es => modeAfter pin (if p = pin then some m else mode) es
  | _ :: es => modeAfter pin mode es

/-- For each `digitalRead` of `pin` in `events`, in order, the mode most
recently set on `pin` when it is called, `mode` being the mode before the
events. -/
def sampleModes (pin : Nat) (mode : Option PinMode) : List Event → List (Option PinMode)
  | [] => []
  | Event.pinMode p m :: es => sampleModes pin (if p = pin then some m else mode) es
  | Event.digitalRead p _ :: es =>
    if p = pin then mode :: sampleModes pin mode es else sampleModes pin mode es
  | _ :: es => sampleModes pin mode es

/-- Open-drain discipline on `pin` along `events`, `prev` being the event just
before them: every `digitalWrite` to `pin` writes LOW, and every
`pinMode(pin, OUTPUT)` comes right after a `digitalWrite(pin, LOW)`. -/
def openDrain (pin : Nat) : Option Event → List Event → Bool
  | _, [] => true
  | _, Event.digitalWrite p v :: es =>
    decide (p = pin → v = LOW) && openDrain pin (some (Event.digitalWrite p v)) es
  | prev, Event.pinMode p PinMode.OUTPUT :: es =>
    decide (p = pin → prev = some (Event.digitalWrite pin LOW)) &&
      openDrain pin (some (Event.pinMode p PinMode.OUTPUT)) es
  | _, e :: es => openDrain pin (some e) es

/-- The level most recently written to `pin` with `digitalWrite` after
`events`, `level` being the one before them. -/
def lastWrite (pin : Nat) (level : Option Nat) : List Event → Option Nat
  | [] => level
  | Event.digitalWrite p v :: es => lastWrite pin (if p = pin then some v else level) es
  | _ :: es => lastWrite pin level es

/-! ## Effect of the operations on the world -/

theorem env_pinMode (pin : Nat) (mode : PinMode) (w : World) :
    (pinMode pin mode w).env = w.env := rfl

theorem env_digitalWrite (pin val : Nat) (w : World) :
    (digitalWrite pin val w).env = w.env := rfl

theorem env_delayMicroseconds (us : Nat) (w : World) :
    (delayMicroseconds us w).env = w.env := rfl

theorem env_controlDataPin (pin val : Nat) (w : World) :
    (controlDataPin pin val w).env = w.env := by
  unfold controlDataPin
  split <;> rfl

theorem env_forLoop (body : Nat → World → World) (h : ∀ i w, (body i w).env = w.env) :
    ∀ (n i : Nat) (w : World), (forLoop body n i w).env = w.env
  | 0, _, _ => rfl
  | n + 1, i, w => (env_forLoop body h n (i + 1) (body i w)).trans (h i w)

theorem env_sendCommandSHT_upToAck (command dataPin clockPin : Nat) (w : World) :
    (sendCommandSHT_upToAck command dataPin clockPin w).env = w.env := by
  unfold sendCommandSHT_upToAck
  simp only [env_pinMode, env_digitalWrite, env_delayMicroseconds]
  rw [env_forLoop]
  · simp only [env_pinMode, env_digitalWrite, env_delayMicroseconds, env_controlDataPin]
  · intro i w
    simp only [env_pinMode, env_digitalWrite, env_delayMicroseconds, env_controlDataPin]

theorem sendCommandSHT_eq (command dataPin clockPin : Nat) (w : World) :
    sendCommandSHT command dataPin clockPin w =
      (let w := sendCommandSHT_upToAck command dataPin clockPin w
       let (ack, w) := digitalRead dataPin w
       if ack ≠ LOW then (false, w) else
       let w := digitalWrite clockPin LOW w
       let w := delayMicroseconds 10 w
       let (ack, w) := digitalRead dataPin w
       if ack ≠ HIGH then (false, w) else
       (true, w)) := rfl

theorem sendCommandSHT_spec (command dataPin clockPin : Nat) (w : World) :
    (sendCommandSHT command dataPin clockPin w).2.env =
        ⟨w.sensor, if w.sensor w.reads then w.reads + 1 else w.reads + 2, w.now, w.pace,
          w.delays⟩ ∧
      (sendCommandSHT command dataPin clockPin w).1
        = (!w.sensor w.reads && w.sensor (w.reads + 1)) := by
  rw [sendCommandSHT_eq]
  have h := env_sendCommandSHT_upToAck command dataPin clockPin w
  generalize sendCommandSHT_upToAck command dataPin clockPin w = p at *
  simp only [World.env, Env.mk.injEq] at h
  obtain ⟨h1, h2, h3, h4, h5⟩ := h
  cases ha : w.sensor w.reads <;> cases hb : w.sensor (w.reads + 1) <;>
    simp [digitalRead, digitalWrite, delayMicroseconds, World.env, h1, h2, h3, h4, h5, ha, hb]

theorem env_digitalRead (pin : Nat) (w : World) :
    (digitalRead pin w).2.env = ⟨w.sensor, w.reads + 1, w.now, w.pace, w.delays⟩ := rfl

theorem fst_digitalRead (pin : Nat) (w : World) :
    (digitalRead pin w).1 = if w.sensor w.reads then 1 else 0 := rfl

theorem forLoop_shiftInBit (dataPin clockPin : Nat) :
    ∀ (n i byte : Nat) (w : World),
      (forLoop (shiftInBit dataPin clockPin) n i (byte, w)).1
          = assembleByte w.sensor n w.reads i byte ∧
        (forLoop (shiftInBit dataPin clockPin) n i (byte, w)).2.env
          = ⟨w.sensor, w.reads + n, w.now, w.pace, w.delays⟩
  | 0, _, _, _ => ⟨rfl, rfl⟩
  | n + 1, i, byte, w => by
    have ih := forLoop_shiftInBit dataPin clockPin n (i + 1)
      (shiftInBit dataPin clockPin i (byte, w)).1 (shiftInBit dataPin clockPin i (byte, w)).2
    refine ⟨ih.1, ih.2.trans ?_⟩
    show Env.mk w.sensor (w.reads + 1 + n) w.now w.pace w.delays = _
    rw [Nat.add_assoc, Nat.add_comm 1 n]

theorem assembleByte_eq (s : Nat → Bool) (r : Nat) :
    assembleByte s 8 r 0 0 =
      (if s r then 1 else 0) * 128 + (if s (r + 1) then 1 else 0) * 64
      + (if s (r + 2) then 1 else 0) * 32 + (if s (r + 3) then 1 else 0) * 16
      + (if s (r + 4) then 1 else 0) * 8 + (if s (r + 5) then 1 else 0) * 4
      + (if s (r + 6) then 1 else 0) * 2 + (if s (r + 7) then 1 else 0) := by
  simp only [assembleByte, Nat.add_assoc, Nat.reduceAdd]
  generalize s r = b0
  generalize s (r + 1) = b1
  generalize s (r + 2) = b2
  generalize s (r + 3) = b3
  generalize s (r + 4) = b4
  generalize s (r + 5) = b5
  generalize s (r + 6) = b6
  generalize s (r + 7) = b7
  revert b0 b1 b2 b3 b4 b5 b6 b7
  decide

theorem assembleByte_lt (s : Nat → Bool) (r : Nat) : assembleByte s 8 r 0 0 < 256 := by
  simp only [assembleByte, Nat.add_assoc, Nat.reduceAdd]
  exact Nat.mod_lt _ (by decide)

theorem env_skipCrcSHT (dataPin clockPin : Nat) (w : World) :
    (skipCrcSHT dataPin clockPin w).env = w.env := by
  unfold skipCrcSHT
  simp only [env_digitalWrite, env_controlDataPin]

theorem getData16SHT_spec (dataPin clockPin : Nat) (w : World) :
    (getData16SHT dataPin clockPin w).1 = word16 w.sensor w.reads ∧
      (getData16SHT dataPin clockPin w).2.env
        = ⟨w.sensor, w.reads + 16, w.now, w.pace, w.delays⟩ := by
  obtain ⟨a1, a2⟩ := forLoop_shiftInBit dataPin clockPin 8 0 0 w
  generalize hp : forLoop (shiftInBit dataPin clockPin) 8 0 (0, w) = p at a1 a2
  have hq : (pinMode dataPin PinMode.INPUT (digitalWrite clockPin LOW (delayMicroseconds 1
      (digitalWrite clockPin HIGH (controlDataPin dataPin LOW p.2))))).env = p.2.env := by
    simp only [env_pinMode, env_digitalWrite, env_delayMicroseconds, env_controlDataPin]
  generalize hm : pinMode dataPin PinMode.INPUT (digitalWrite clockPin LOW (delayMicroseconds 1
      (digitalWrite clockPin HIGH (controlDataPin dataPin LOW p.2)))) = m at hq
  obtain ⟨b1, b2⟩ := forLoop_shiftInBit dataPin clockPin 8 0 0 m
  have e : getData16SHT dataPin clockPin w =
      (((p.1 <<< 8) ||| (forLoop (shiftInBit dataPin clockPin) 8 0 (0, m)).1) % 65536,
        (forLoop (shiftInBit dataPin clockPin) 8 0 (0, m)).2) := by
    unfold getData16SHT
    simp only [hp, hm]
  rw [a2] at hq
  simp only [World.env, Env.mk.injEq] at hq
  obtain ⟨h1, h2, h3, h4, h5⟩ := hq
  rw [e]
  refine ⟨?_, ?_⟩
  · show ((p.1 <<< 8) ||| (forLoop (shiftInBit dataPin clockPin) 8 0 (0, m)).1) % 65536 = _
    rw [b1, a1, h1, h2]
    have hYlt : assembleByte w.sensor 8 (w.reads + 8) 0 0 < 2 ^ 8 := assembleByte_lt _ _
    have hXlt : assembleByte w.sensor 8 w.reads 0 0 < 256 := assembleByte_lt _ _
    have hor : assembleByte w.sensor 8 w.reads 0 0 <<< 8 ||| assembleByte w.sensor 8 (w.reads + 8) 0 0
        = 2 ^ 8 * assembleByte w.sensor 8 w.reads 0 0 + assembleByte w.sensor 8 (w.reads + 8) 0 0 := by
      rw [Nat.shiftLeft_eq, Nat.mul_comm _ (2 ^ 8), ← Nat.mul_add_lt_is_or hYlt]
    rw [hor, Nat.mod_eq_of_lt (by omega), assembleByte_eq, assembleByte_eq]
    simp only [word16, Finset.sum_range_succ, Finset.sum_range_zero, Nat.add_assoc,
      Nat.reduceAdd, Nat.reduceSub, Nat.reducePow, Nat.add_zero, Nat.zero_add]
    generalize (if w.sensor w.reads = true then 1 else 0) = t0
    generalize (if w.sensor (w.reads + 1) = true then 1 else 0) = t1
    generalize (if w.sensor (w.reads + 2) = true then 1 else 0) = t2
    generalize (if w.sensor (w.reads + 3) = true then 1 else 0) = t3
    generalize (if w.sensor (w.reads + 4) = true then 1 else 0) = t4
    generalize (if w.sensor (w.reads + 5) = true then 1 else 0) = t5
    generalize (if w.sensor (w.reads + 6) = true then 1 else 0) = t6
    generalize (if w.sensor (w.reads + 7) = true then 1 else 0) = t7
    generalize (if w.sensor (w.reads + 8) = true then 1 else 0) = t8
    generalize (if w.sensor (w.reads + 9) = true then 1 else 0) = t9
    generalize (if w.sensor (w.reads + 10) = true then 1 else 0) = t10
    generalize (if w.sensor (w.reads + 11) = true then 1 else 0) = t11
    generalize (if w.sensor (w.reads + 12) = true then 1 else 0) = t12
    generalize (if w.sensor (w.reads + 13) = true then 1 else 0) = t13
    generalize (if w.sensor (w.reads + 14) = true then 1 else 0) = t14
    generalize (if w.sensor (w.reads + 15) = true then 1 else 0) = t15
    omega
  · show (forLoop (shiftInBit dataPin clockPin) 8 0 (0, m)).2.env = _
    rw [b2, h1, h2, h3, h4, h5]


theorem env_pollStep (dataPin : Nat) (w : World) :
    (pollStep dataPin w).env
      = ⟨w.sensor, w.reads + 1, w.now + w.pace w.delays, w.pace, w.delays + 1⟩ := rfl

theorem waitLoop_succ (dataPin startWait fuel : Nat) (w : World) :
    waitLoop dataPin startWait (fuel + 1) HIGH w =
      if ((w.now + w.pace w.delays) % 2 ^ 32 + 2 ^ 32 - startWait) % 2 ^ 32 > 1000 then
        some (if w.sensor w.reads then 1 else 0, pollStep dataPin w)
      else waitLoop dataPin startWait fuel (if w.sensor w.reads then 1 else 0)
        (pollStep dataPin w) := by
  rw [waitLoop]
  rfl

theorem waitLoop_low (dataPin startWait fuel : Nat) (w : World) :
    waitLoop dataPin startWait (fuel + 1) LOW w = some (LOW, w) := by
  rw [waitLoop]
  rfl

theorem elapsedAfter_pollStep (dataPin : Nat) (w : World) (j : Nat) :
    w.pace w.delays + elapsedAfter (pollStep dataPin w) j = elapsedAfter w (j + 1) := by
  unfold elapsedAfter
  rw [Finset.sum_range_succ', Nat.add_comm]
  have hd : (pollStep dataPin w).delays = w.delays + 1 := rfl
  have hp : (pollStep dataPin w).pace = w.pace := rfl
  rw [hd, hp]
  simp only [Nat.add_zero, Nat.add_assoc, Nat.add_comm 1]

theorem waitLoop_timeout (dataPin t0 : Nat) :
    ∀ (m n e : Nat) (w : World) (fuel : Nat),
      n + m = 101 → 10 * n ≤ e → e ≤ 1000 → w.now = t0 + e →
      (∀ k, w.sensor (w.reads + k) = true) →
      (∀ k, 10 ≤ w.pace (w.delays + k)) →
      (∀ j, e + elapsedAfter w j ≤ 1000 → e + elapsedAfter w (j + 1) < 2 ^ 32) →
      m ≤ fuel →
      ∃ w', waitLoop dataPin (t0 % 2 ^ 32) fuel HIGH w = some (HIGH, w') ∧
        w.reads < w'.reads ∧ w'.reads ≤ w.reads + m ∧ t0 + 1000 < w'.now
  | 0, n, e, w, fuel => by
    intro h1 h2 h3
    omega
  | m + 1, n, e, w, 0 => by
    intro _ _ _ _ _ _ _ h
    omega
  | m + 1, n, e, w, fuel + 1 => by
    intro hn hlo hhi hnow hs hp hper hfuel
    have hs0 : w.sensor w.reads = true := hs 0
    have hp0 : 10 ≤ w.pace w.delays := hp 0
    have hlt : e + w.pace w.delays < 2 ^ 32 := by
      have := hper 0
      simp only [elapsedAfter, Finset.sum_range_zero, Finset.sum_range_one, Nat.add_zero] at this
      exact this hhi
    have hcomp : ((w.now + w.pace w.delays) % 2 ^ 32 + 2 ^ 32 - t0 % 2 ^ 32) % 2 ^ 32
        = e + w.pace w.delays := by
      rw [hnow]
      omega
    rw [waitLoop_succ, hcomp, hs0]
    by_cases hout : e + w.pace w.delays > 1000
    · rw [if_pos hout]
      refine ⟨pollStep dataPin w, rfl, ?_, ?_, ?_⟩
      · show w.reads < w.reads + 1
        omega
      · show w.reads + 1 ≤ w.reads + (m + 1)
        omega
      · show t0 + 1000 < w.now + w.pace w.delays
        omega
    · rw [if_neg hout]
      obtain ⟨w', hw', ha, hb, hc⟩ := waitLoop_timeout dataPin t0 m (n + 1)
        (e + w.pace w.delays) (pollStep dataPin w) fuel (by omega) (by omega) (by omega)
        (by show w.now + w.pace w.delays = _; omega)
        (by intro k
            show w.sensor (w.reads + 1 + k) = true
            rw [Nat.add_assoc]; exact hs _)
        (by intro k
            show 10 ≤ w.pace (w.delays + 1 + k)
            rw [Nat.add_assoc]; exact hp _)
        (by intro j hj
            have e1 := elapsedAfter_pollStep dataPin w j
            have e2 := elapsedAfter_pollStep dataPin w (j + 1)
            have := hper (j + 1) (by omega)
            omega)
        (by omega)
      refine ⟨w', hw', ?_, ?_, hc⟩
      · have : (pollStep dataPin w).reads = w.reads + 1 := rfl
        omega
      · have : (pollStep dataPin w).reads = w.reads + 1 := rfl
        omega


theorem waitForResultSHT_eq (fuel dataPin : Nat) (w : World) :
    waitForResultSHT fuel dataPin w =
      (waitLoop dataPin (w.now % 2 ^ 32) fuel HIGH (millis (pinMode dataPin PinMode.INPUT w)).2).map
        (fun r => (decide (r.1 ≠ HIGH), r.2)) := by
  unfold waitForResultSHT
  simp only [millis, pinMode]
  cases waitLoop dataPin (w.now % 2 ^ 32) fuel HIGH _ <;> rfl

theorem waitForResultSHT_ready (fuel dataPin : Nat) (w : World)
    (h : w.sensor w.reads = false) (hf : 2 ≤ fuel) :
    ∃ w', waitForResultSHT fuel dataPin w = some (true, w') ∧
      w'.env = ⟨w.sensor, w.reads + 1, w.now + w.pace w.delays, w.pace, w.delays + 1⟩ := by
  obtain ⟨f, rfl⟩ : ∃ f, fuel = f + 1 + 1 := ⟨fuel - 2, by omega⟩
  refine ⟨pollStep dataPin (millis (pinMode dataPin PinMode.INPUT w)).2, ?_, rfl⟩
  rw [waitForResultSHT_eq, waitLoop_succ]
  have hs : (millis (pinMode dataPin PinMode.INPUT w)).2.sensor
      (millis (pinMode dataPin PinMode.INPUT w)).2.reads = false := h
  rw [hs]
  split
  · rfl
  · rw [if_neg (by decide), waitLoop_low]
    rfl

theorem readRawData_of_send_false (hdr : Header) (fuel : Nat) (command : ShtCommand)
    (dataPin clockPin : Nat) (w : World)
    (h : (sendCommandSHT (hdr.commandCode command) dataPin clockPin w).1 = false) :
    readRawData hdr fuel command dataPin clockPin w =
      some (hdr.kRawDataError, (sendCommandSHT (hdr.commandCode command) dataPin clockPin w).2) := by
  unfold readRawData
  rcases hs : sendCommandSHT (hdr.commandCode command) dataPin clockPin w with ⟨b, w1⟩
  rw [hs] at h
  cases b
  · rfl
  · exact Bool.noConfusion h

theorem readRawData_of_send_true (hdr : Header) (fuel : Nat) (command : ShtCommand)
    (dataPin clockPin : Nat) (w : World)
    (h : (sendCommandSHT (hdr.commandCode command) dataPin clockPin w).1 = true) :
    readRawData hdr fuel command dataPin clockPin w =
      match waitForResultSHT fuel dataPin
          (sendCommandSHT (hdr.commandCode command) dataPin clockPin w).2 with
      | none => none
      | some (false, w) => some (hdr.kRawDataError, w)
      | some (true, w) =>
        some ((getData16SHT dataPin clockPin w).1,
          skipCrcSHT dataPin clockPin (getData16SHT dataPin clockPin w).2) := by
  unfold readRawData
  rcases hs : sendCommandSHT (hdr.commandCode command) dataPin clockPin w with ⟨b, w1⟩
  rw [hs] at h
  cases b
  · exact Bool.noConfusion h
  · rfl

theorem readRawData_ready (hdr : Header) (fuel : Nat) (command : ShtCommand)
    (dataPin clockPin : Nat) (w : World) (h0 : w.sensor w.reads = false)
    (h1 : w.sensor (w.reads + 1) = true) (h2 : w.sensor (w.reads + 2) = false)
    (hf : 2 ≤ fuel) :
    ∃ w', readRawData hdr fuel command dataPin clockPin w
        = some (word16 w.sensor (w.reads + 3), w') ∧
      w'.env = ⟨w.sensor, w.reads + 19, w.now + w.pace w.delays, w.pace, w.delays + 1⟩ := by
  obtain ⟨e1, e2⟩ := sendCommandSHT_spec (hdr.commandCode command) dataPin clockPin w
  rw [h0, h1] at e2
  rw [h0, if_neg (by decide)] at e1
  rw [readRawData_of_send_true hdr fuel command dataPin clockPin w e2]
  generalize (sendCommandSHT (hdr.commandCode command) dataPin clockPin w).2 = w1 at e1
  simp only [World.env, Env.mk.injEq] at e1
  obtain ⟨a1, a2, a3, a4, a5⟩ := e1
  obtain ⟨w2, hw2, e3⟩ := waitForResultSHT_ready fuel dataPin w1 (by rw [a1, a2]; exact h2) hf
  rw [hw2]
  rw [a1, a2, a3, a4, a5] at e3
  simp only [World.env, Env.mk.injEq] at e3
  obtain ⟨b1, b2, b3, b4, b5⟩ := e3
  obtain ⟨g1, g2⟩ := getData16SHT_spec dataPin clockPin w2
  refine ⟨skipCrcSHT dataPin clockPin (getData16SHT dataPin clockPin w2).2, ?_, ?_⟩
  · show some ((getData16SHT dataPin clockPin w2).1, _) = _
    rw [g1, b1, b2]
  · rw [env_skipCrcSHT, g2, b1, b2, b3, b4, b5]


/-! ## Public read operations in terms of the raw read -/

theorem readTemperatureC_of_raw (hdr : Header) (fuel : Nat) (dev : Device) (w w' : World)
    (raw : Nat)
    (h : readRawData hdr fuel ShtCommand.MeasureTemperature dev._dataPin dev._clockPin w
      = some (raw, w')) :
    readTemperatureC hdr fuel dev w =
      some (if raw = hdr.kRawDataError then Flt.NAN
        else Flt.num (getD1ForC dev._voltage + getD2ForC dev._tempResolution * raw), w') := by
  unfold readTemperatureC
  simp only [h]
  split <;> rfl

theorem readTemperatureF_of_raw (hdr : Header) (fuel : Nat) (dev : Device) (w w' : World)
    (raw : Nat)
    (h : readRawData hdr fuel ShtCommand.MeasureTemperature dev._dataPin dev._clockPin w
      = some (raw, w')) :
    readTemperatureF hdr fuel dev w =
      some (if raw = hdr.kRawDataError then Flt.NAN
        else Flt.num (getD1ForF dev._voltage + getD2ForF dev._tempResolution * raw), w') := by
  unfold readTemperatureF
  simp only [h]
  split <;> rfl

theorem readHumidity_of_sentinel (hdr : Header) (fuel : Nat) (dev : Device) (w w' : World)
    (h : readRawData hdr fuel ShtCommand.MeasureRelativeHumidity dev._dataPin dev._clockPin w
      = some (hdr.kRawDataError, w')) :
    readHumidity hdr fuel dev w = some (Flt.NAN, w') := by
  unfold readHumidity
  simp only [h, if_true]

theorem readHumidity_of_raw (hdr : Header) (fuel : Nat) (dev : Device) (w w1 w2 : World)
    (raw rawT : Nat)
    (h1 : readRawData hdr fuel ShtCommand.MeasureRelativeHumidity dev._dataPin dev._clockPin w
      = some (raw, w1))
    (hraw : raw ≠ hdr.kRawDataError)
    (h2 : readRawData hdr fuel ShtCommand.MeasureTemperature dev._dataPin dev._clockPin w1
      = some (rawT, w2)) :
    readHumidity hdr fuel dev w =
      some (if rawT = hdr.kRawDataError then Flt.NAN
        else Flt.num ((getD1ForC dev._voltage + getD2ForC dev._tempResolution * rawT - 25.0)
          * (getT1 dev._humidityResolution + getT2 dev._humidityResolution * raw)
          + (getC1 dev._humidityResolution + getC2 dev._humidityResolution * raw
            + getC3 dev._humidityResolution * raw * raw)), w2) := by
  unfold readHumidity
  simp only [h1, if_neg hraw, readTemperatureC_of_raw hdr fuel dev w1 w2 rawT h2]
  by_cases hT : rawT = hdr.kRawDataError
  · simp only [if_pos hT]
  · simp only [if_neg hT]

theorem eq_some_worldAfter {α : Type} (r : Option (α × World)) (a : α) (w : World)
    (h : r.map Prod.fst = some a) : r = some (a, worldAfter r w) := by
  cases r with
  | none => exact Option.noConfusion h
  | some p =>
    have e : p.1 = a := Option.some.inj h
    rw [← e]
    rfl

/-! ## Claims -/

/-- **C1** Error contagion. Whenever a raw read performed by a public read
operation yields `kRawDataError`, the operation returns `NAN`: the temperature
exchange of `readTemperatureC` and of `readTemperatureF`, the humidity exchange
of `readHumidity`, and the temperature exchange that `readHumidity` performs
after a humidity exchange that gave a code other than the sentinel. -/
theorem error_contagion (hdr : Header) (fuel : Nat) (dev : Device) (w : World) :
    (∀ w', readRawData hdr fuel ShtCommand.MeasureTemperature dev._dataPin dev._clockPin w
          = some (hdr.kRawDataError, w') →
        readTemperatureC hdr fuel dev w = some (Flt.NAN, w') ∧
        readTemperatureF hdr fuel dev w = some (Flt.NAN, w')) ∧
    (∀ w', readRawData hdr fuel ShtCommand.MeasureRelativeHumidity dev._dataPin dev._clockPin w
          = some (hdr.kRawDataError, w') →
        readHumidity hdr fuel dev w = some (Flt.NAN, w')) ∧
    (∀ raw w1 w2,
        readRawData hdr fuel ShtCommand.MeasureRelativeHumidity dev._dataPin dev._clockPin w
          = some (raw, w1) →
        raw ≠ hdr.kRawDataError →
        readRawData hdr fuel ShtCommand.MeasureTemperature dev._dataPin dev._clockPin w1
          = some (hdr.kRawDataError, w2) →
        readHumidity hdr fuel dev w = some (Flt.NAN, w2)) := by
  refine ⟨fun w' h => ⟨?_, ?_⟩, fun w' h => readHumidity_of_sentinel hdr fuel dev w w' h,
    fun raw w1 w2 h1 hraw h2 => ?_⟩
  · rw [readTemperatureC_of_raw hdr fuel dev w w' _ h, if_pos rfl]
  · rw [readTemperatureF_of_raw hdr fuel dev w w' _ h, if_pos rfl]
  · rw [readHumidity_of_raw hdr fuel dev w w1 w2 raw _ h1 hraw h2, if_pos rfl]

/-- Witness of C1: a sensor that never acknowledges, and a sensor that answers
the humidity exchange with `0x0640` and then no longer acknowledges. -/
theorem error_contagion_witness :
    (readTemperatureC demoHeader 5 demoDevice (demoWorld [])
        = some (Flt.NAN, (sendCommandSHT 3 2 3 (demoWorld [])).2) ∧
      readTemperatureF demoHeader 5 demoDevice (demoWorld [])
        = some (Flt.NAN, (sendCommandSHT 3 2 3 (demoWorld [])).2)) ∧
    readHumidity demoHeader 5 demoDevice (demoWorld [])
        = some (Flt.NAN, (sendCommandSHT 5 2 3 (demoWorld [])).2) ∧
    readHumidity demoHeader 5 demoDevice (demoWorld scriptWordThenSilence)
        = some (Flt.NAN,
            (sendCommandSHT 3 2 3
              (worldAfter (readRawData demoHeader 5 ShtCommand.MeasureRelativeHumidity 2 3
                (demoWorld scriptWordThenSilence)) (demoWorld []))).2) :=
  ⟨(error_contagion demoHeader 5 demoDevice (demoWorld [])).1 _
      (readRawData_of_send_false demoHeader 5 ShtCommand.MeasureTemperature 2 3 (demoWorld [])
        (by decide)),
    (error_contagion demoHeader 5 demoDevice (demoWorld [])).2.1 _
      (readRawData_of_send_false demoHeader 5 ShtCommand.MeasureRelativeHumidity 2 3
        (demoWorld []) (by decide)),
    (error_contagion demoHeader 5 demoDevice (demoWorld scriptWordThenSilence)).2.2 1600
      (worldAfter (readRawData demoHeader 5 ShtCommand.MeasureRelativeHumidity 2 3
        (demoWorld scriptWordThenSilence)) (demoWorld [])) _
      (eq_some_worldAfter _ 1600 _ (by decide)) (by decide)
      (readRawData_of_send_false demoHeader 5 ShtCommand.MeasureTemperature 2 3 _
        (by decide))⟩

/-- **C2** Celsius conversion. When the temperature exchange returns a code `R`
other than the sentinel, `readTemperatureC` returns `D1(v) + D2(r) * R`, with
`D1 = [-40.1, -39.8, -39.7, -39.66, -39.6, -39.4]` indexed by the voltage
ordinal and `D2 = [0.01, 0.04]` indexed by the resolution ordinal; for the third
voltage class at 14 bits this is `-39.7 + 0.01 * R`. -/
theorem readTemperatureC_affine (hdr : Header) (fuel : Nat) (dev : Device) (w w' : World)
    (R : Nat)
    (h : readRawData hdr fuel ShtCommand.MeasureTemperature dev._dataPin dev._clockPin w
      = some (R, w'))
    (hR : R ≠ hdr.kRawDataError) :
    readTemperatureC hdr fuel dev w =
        some (Flt.num
          (([-40.1, -39.8, -39.7, -39.66, -39.6, -39.4] : List ℚ).getD dev._voltage.toUInt8 0
            + ([0.01, 0.04] : List ℚ).getD dev._tempResolution.toUInt8 0 * R), w') ∧
      (dev._voltage = Voltage.level2 →
        dev._tempResolution = TemperatureMeasurementResolution.Temperature_14bit →
        readTemperatureC hdr fuel dev w = some (Flt.num (-39.7 + 0.01 * R), w')) := by
  have e := readTemperatureC_of_raw hdr fuel dev w w' R h
  rw [if_neg hR] at e
  refine ⟨e, fun hv hr => ?_⟩
  rw [e, hv, hr]
  rfl

/-- Witness of C2: the sensor answers the temperature exchange with `0x1234`. -/
theorem readTemperatureC_affine_witness :
    readTemperatureC demoHeader 5 demoDevice (demoWorld scriptWord) =
      some (Flt.num (-39.7 + 0.01 * (4660 : Nat)),
        worldAfter (readRawData demoHeader 5 ShtCommand.MeasureTemperature 2 3
          (demoWorld scriptWord)) (demoWorld [])) :=
  (readTemperatureC_affine demoHeader 5 demoDevice (demoWorld scriptWord) _ 4660
    (eq_some_worldAfter _ 4660 _ (by decide)) (by decide)).2 rfl rfl

/-- **C3** Relative humidity conversion. When the humidity exchange returns a
code `Rh` and the temperature exchange that follows returns a code `Rt`, both
other than the sentinel, `readHumidity` returns
`(T_C - 25) * (T1(h) + T2(h) * Rh) + C1(h) + C2(h) * Rh + C3(h) * Rh^2` with
`T_C = D1(v) + D2(r) * Rt`, the tables being indexed by the ordinals of the
humidity resolution, the voltage class and the temperature resolution. -/
theorem readHumidity_formula (hdr : Header) (fuel : Nat) (dev : Device) (w w1 w2 : World)
    (Rh Rt : Nat)
    (h1 : readRawData hdr fuel ShtCommand.MeasureRelativeHumidity dev._dataPin dev._clockPin w
      = some (Rh, w1))
    (hRh : Rh ≠ hdr.kRawDataError)
    (h2 : readRawData hdr fuel ShtCommand.MeasureTemperature dev._dataPin dev._clockPin w1
      = some (Rt, w2))
    (hRt : Rt ≠ hdr.kRawDataError) :
    readHumidity hdr fuel dev w =
      some (Flt.num
        (((([-40.1, -39.8, -39.7, -39.66, -39.6, -39.4] : List ℚ).getD dev._voltage.toUInt8 0
              + ([0.01, 0.04] : List ℚ).getD dev._tempResolution.toUInt8 0 * Rt) - 25)
            * (([0.01, 0.01] : List ℚ).getD dev._humidityResolution.toUInt8 0
              + ([0.00008, 0.00128] : List ℚ).getD dev._humidityResolution.toUInt8 0 * Rh)
          + ([-2.0468, -2.0468] : List ℚ).getD dev._humidityResolution.toUInt8 0
          + ([0.0367, 0.5872] : List ℚ).getD dev._humidityResolution.toUInt8 0 * Rh
          + ([-1.5955e-6, -4.0845e-4] : List ℚ).getD dev._humidityResolution.toUInt8 0
            * (Rh : ℚ) ^ 2), w2) := by
  rw [readHumidity_of_raw hdr fuel dev w w1 w2 Rh Rt h1 hRh h2, if_neg hRt]
  refine congrArg (fun q => some (Flt.num q, w2)) ?_
  simp only [getD1ForC, getD2ForC, getT1, getT2, getC1, getC2, getC3]
  ring

/-- Witness of C3: the sensor answers the humidity exchange with `0x0640` and
the temperature exchange with `0x1234`; the result is the value of the formula
at `Rh = 1600`, `Rt = 4660`, which is `6566939081 / 125000000`. -/
theorem readHumidity_formula_witness :
    readHumidity demoHeader 5 demoDevice (demoWorld scriptTwoWords) =
      some (Flt.num
        (((([-40.1, -39.8, -39.7, -39.66, -39.6, -39.4] : List ℚ).getD 2 0
              + ([0.01, 0.04] : List ℚ).getD 0 0 * (4660 : Nat)) - 25)
            * (([0.01, 0.01] : List ℚ).getD 0 0
              + ([0.00008, 0.00128] : List ℚ).getD 0 0 * (1600 : Nat))
          + ([-2.0468, -2.0468] : List ℚ).getD 0 0
          + ([0.0367, 0.5872] : List ℚ).getD 0 0 * (1600 : Nat)
          + ([-1.5955e-6, -4.0845e-4] : List ℚ).getD 0 0 * ((1600 : Nat) : ℚ) ^ 2),
        worldAfter (readRawData demoHeader 5 ShtCommand.MeasureTemperature 2 3
          (worldAfter (readRawData demoHeader 5 ShtCommand.MeasureRelativeHumidity 2 3
            (demoWorld scriptTwoWords)) (demoWorld []))) (demoWorld [])) :=
  readHumidity_formula demoHeader 5 demoDevice (demoWorld scriptTwoWords) _ _ 1600 4660
    (eq_some_worldAfter _ 1600 _ (by decide)) (by decide)
    (eq_some_worldAfter _ 4660 _ (by decide)) (by decide)


/-- **C4** Humidity failure propagation. When the humidity exchange of
`readHumidity` returns a raw code and the temperature exchange that follows
fails, because the command is not acknowledged or because the wait for the
result times out, `readHumidity` returns `NAN`, which is not the uncompensated
linear humidity `C1 + C2 * Rh + C3 * Rh * Rh`. -/
theorem readHumidity_temperature_failure (hdr : Header) (fuel : Nat) (dev : Device)
    (w w1 : World) (Rh : Nat)
    (h1 : readRawData hdr fuel ShtCommand.MeasureRelativeHumidity dev._dataPin dev._clockPin w
      = some (Rh, w1))
    (h2 : (sendCommandSHT (hdr.commandCode ShtCommand.MeasureTemperature)
          dev._dataPin dev._clockPin w1).1 = false ∨
      ((sendCommandSHT (hdr.commandCode ShtCommand.MeasureTemperature)
          dev._dataPin dev._clockPin w1).1 = true ∧
        (waitForResultSHT fuel dev._dataPin
          (sendCommandSHT (hdr.commandCode ShtCommand.MeasureTemperature)
            dev._dataPin dev._clockPin w1).2).map Prod.fst = some false)) :
    (∃ w', readHumidity hdr fuel dev w = some (Flt.NAN, w')) ∧
      (readHumidity hdr fuel dev w).map Prod.fst ≠
        some (Flt.num (getC1 dev._humidityResolution + getC2 dev._humidityResolution * Rh
          + getC3 dev._humidityResolution * Rh * Rh)) := by
  have key : ∃ w', readHumidity hdr fuel dev w = some (Flt.NAN, w') := by
    by_cases hRh : Rh = hdr.kRawDataError
    · subst hRh
      exact ⟨w1, readHumidity_of_sentinel hdr fuel dev w w1 h1⟩
    · have hT : ∃ w2, readRawData hdr fuel ShtCommand.MeasureTemperature dev._dataPin
          dev._clockPin w1 = some (hdr.kRawDataError, w2) := by
        rcases h2 with hs | ⟨hs, hw⟩
        · exact ⟨_, readRawData_of_send_false hdr fuel _ _ _ w1 hs⟩
        · have hw' := eq_some_worldAfter _ false w1 hw
          generalize worldAfter (waitForResultSHT fuel dev._dataPin
            (sendCommandSHT (hdr.commandCode ShtCommand.MeasureTemperature)
              dev._dataPin dev._clockPin w1).2) w1 = w2 at hw'
          refine ⟨w2, ?_⟩
          rw [readRawData_of_send_true hdr fuel _ _ _ w1 hs, hw']
      obtain ⟨w2, hw2⟩ := hT
      refine ⟨w2, ?_⟩
      rw [readHumidity_of_raw hdr fuel dev w w1 w2 Rh _ h1 hRh hw2, if_pos rfl]
  obtain ⟨w', hw'⟩ := key
  refine ⟨⟨w', hw'⟩, ?_⟩
  rw [hw']
  exact fun h => Flt.noConfusion (Option.some.inj h)

/-- Witness of C4: the sensor answers the humidity exchange with `0x0640` and
does not acknowledge the temperature command. -/
theorem readHumidity_temperature_failure_witness :
    (∃ w', readHumidity demoHeader 5 demoDevice (demoWorld scriptWordThenSilence)
        = some (Flt.NAN, w')) ∧
      (readHumidity demoHeader 5 demoDevice (demoWorld scriptWordThenSilence)).map Prod.fst ≠
        some (Flt.num (getC1 HumidityMeasurementResolution.Humidity_12bit
          + getC2 HumidityMeasurementResolution.Humidity_12bit * (1600 : Nat)
          + getC3 HumidityMeasurementResolution.Humidity_12bit * (1600 : Nat) * (1600 : Nat))) :=
  readHumidity_temperature_failure demoHeader 5 demoDevice (demoWorld scriptWordThenSilence)
    (worldAfter (readRawData demoHeader 5 ShtCommand.MeasureRelativeHumidity 2 3
      (demoWorld scriptWordThenSilence)) (demoWorld [])) 1600
    (eq_some_worldAfter _ 1600 _ (by decide)) (Or.inl (by decide))

/-- **C6** Failed handshake stops the transaction. If the data line is not LOW
at the acknowledgment sample, `sendCommandSHT` reports failure after that one
sample; whenever `sendCommandSHT` reports failure, `readRawData` returns
`kRawDataError` in the very world `sendCommandSHT` left, in which at most the
two acknowledgment samples were taken; and whenever the wait times out,
`readRawData` returns `kRawDataError` in the very world `waitForResultSHT`
left. So no event of the shift-in phase or of the CRC skip is performed. -/
theorem failed_handshake_stops (hdr : Header) (fuel : Nat) (command : ShtCommand)
    (dataPin clockPin : Nat) (w : World) :
    (w.sensor w.reads = true →
        (sendCommandSHT (hdr.commandCode command) dataPin clockPin w).1 = false ∧
        (sendCommandSHT (hdr.commandCode command) dataPin clockPin w).2.reads = w.reads + 1) ∧
    ((sendCommandSHT (hdr.commandCode command) dataPin clockPin w).1 = false →
        readRawData hdr fuel command dataPin clockPin w = some (hdr.kRawDataError,
          (sendCommandSHT (hdr.commandCode command) dataPin clockPin w).2) ∧
        (sendCommandSHT (hdr.commandCode command) dataPin clockPin w).2.reads ≤ w.reads + 2) ∧
    (∀ w2, (sendCommandSHT (hdr.commandCode command) dataPin clockPin w).1 = true →
        waitForResultSHT fuel dataPin
          (sendCommandSHT (hdr.commandCode command) dataPin clockPin w).2 = some (false, w2) →
        readRawData hdr fuel command dataPin clockPin w = some (hdr.kRawDataError, w2)) := by
  obtain ⟨e1, e2⟩ := sendCommandSHT_spec (hdr.commandCode command) dataPin clockPin w
  have er : (sendCommandSHT (hdr.commandCode command) dataPin clockPin w).2.reads
      = if w.sensor w.reads then w.reads + 1 else w.reads + 2 := congrArg Env.reads e1
  refine ⟨fun h => ?_, fun h => ⟨readRawData_of_send_false hdr fuel _ _ _ w h, ?_⟩,
    fun w2 hs hw => ?_⟩
  · rw [e2, er, h]
    exact ⟨rfl, rfl⟩
  · rw [er]
    split <;> omega
  · rw [readRawData_of_send_true hdr fuel _ _ _ w hs, hw]


theorem bit_le_one (b : Bool) : (if b = true then 1 else 0 : Nat) ≤ 1 := by
  split <;> decide

theorem word16_bytes (s : Nat → Bool) (r : Nat) :
    word16 s r < 65536 ∧
      word16 s r / 256
        = ∑ i in Finset.range 8, (if s (r + i) then 1 else 0) * 2 ^ (7 - i) ∧
      word16 s r % 256
        = ∑ i in Finset.range 8, (if s (r + 8 + i) then 1 else 0) * 2 ^ (7 - i) := by
  simp only [word16, Finset.sum_range_succ, Finset.sum_range_zero, Nat.add_assoc,
    Nat.reduceAdd, Nat.reduceSub, Nat.reducePow, Nat.add_zero, Nat.zero_add]
  have h0 := bit_le_one (s r)
  generalize (if s r = true then 1 else 0) = t0 at *
  have h1 := bit_le_one (s (r + 1))
  generalize (if s (r + 1) = true then 1 else 0) = t1 at *
  have h2 := bit_le_one (s (r + 2))
  generalize (if s (r + 2) = true then 1 else 0) = t2 at *
  have h3 := bit_le_one (s (r + 3))
  generalize (if s (r + 3) = true then 1 else 0) = t3 at *
  have h4 := bit_le_one (s (r + 4))
  generalize (if s (r + 4) = true then 1 else 0) = t4 at *
  have h5 := bit_le_one (s (r + 5))
  generalize (if s (r + 5) = true then 1 else 0) = t5 at *
  have h6 := bit_le_one (s (r + 6))
  generalize (if s (r + 6) = true then 1 else 0) = t6 at *
  have h7 := bit_le_one (s (r + 7))
  generalize (if s (r + 7) = true then 1 else 0) = t7 at *
  have h8 := bit_le_one (s (r + 8))
  generalize (if s (r + 8) = true then 1 else 0) = t8 at *
  have h9 := bit_le_one (s (r + 9))
  generalize (if s (r + 9) = true then 1 else 0) = t9 at *
  have h10 := bit_le_one (s (r + 10))
  generalize (if s (r + 10) = true then 1 else 0) = t10 at *
  have h11 := bit_le_one (s (r + 11))
  generalize (if s (r + 11) = true then 1 else 0) = t11 at *
  have h12 := bit_le_one (s (r + 12))
  generalize (if s (r + 12) = true then 1 else 0) = t12 at *
  have h13 := bit_le_one (s (r + 13))
  generalize (if s (r + 13) = true then 1 else 0) = t13 at *
  have h14 := bit_le_one (s (r + 14))
  generalize (if s (r + 14) = true then 1 else 0) = t14 at *
  have h15 := bit_le_one (s (r + 15))
  generalize (if s (r + 15) = true then 1 else 0) = t15 at *
  omega

/-- **C7** Bit order of the 16-bit shift-in. `getData16SHT` takes sixteen
samples `b_0 .. b_15` of the data line, the next sixteen levels of the sensor
script, and returns the sum of `b_i * 2^(15 - i)`: the first eight samples are
the high byte, most significant bit first, the last eight the low byte, and
the result is below 65536. -/
theorem getData16SHT_bit_order (dataPin clockPin : Nat) (w : World) :
    (getData16SHT dataPin clockPin w).1
        = ∑ i in Finset.range 16, (if w.sensor (w.reads + i) then 1 else 0) * 2 ^ (15 - i) ∧
      (getData16SHT dataPin clockPin w).1 / 256
        = ∑ i in Finset.range 8, (if w.sensor (w.reads + i) then 1 else 0) * 2 ^ (7 - i) ∧
      (getData16SHT dataPin clockPin w).1 % 256
        = ∑ i in Finset.range 8, (if w.sensor (w.reads + 8 + i) then 1 else 0) * 2 ^ (7 - i) ∧
      (getData16SHT dataPin clockPin w).1 < 65536 ∧
      (getData16SHT dataPin clockPin w).2.reads = w.reads + 16 := by
  obtain ⟨h1, h2⟩ := getData16SHT_spec dataPin clockPin w
  obtain ⟨b1, b2, b3⟩ := word16_bytes w.sensor w.reads
  rw [h1]
  exact ⟨rfl, b2, b3, b1, congrArg Env.reads h2⟩

/-- **C8** Timeout scenario. The data line is HIGH at every poll and every
`delay(10)` takes at least 10 ms. The clock is monotonic: the time `now` only
advances, and the 32-bit count read by `millis()` follows it over the wait, in
that, as long as at most 1000 ms have elapsed since the start, the next `delay`
ends less than `2^32` ms after the start; this holds in particular when the
count does not wrap during the wait. Then `waitForResultSHT` returns whenever
it is given fuel for 101 evaluations of the loop condition, it returns `false`,
it has taken between 1 and 101 samples, and more than 1000 ms have elapsed
since its start. -/
theorem waitForResultSHT_timeout (dataPin : Nat) (w : World) (fuel : Nat)
    (hhigh : ∀ k, w.sensor (w.reads + k) = true)
    (hpace : ∀ k, 10 ≤ w.pace (w.delays + k))
    (hperiod : ∀ j, elapsedAfter w j ≤ 1000 → elapsedAfter w (j + 1) < 2 ^ 32)
    (hfuel : 101 ≤ fuel) :
    ∃ w', waitForResultSHT fuel dataPin w = some (false, w') ∧
      w.reads + 1 ≤ w'.reads ∧ w'.reads ≤ w.reads + 101 ∧ w.now + 1000 < w'.now := by
  obtain ⟨w', hw', ha, hb, hc⟩ := waitLoop_timeout dataPin w.now 101 0 0
    (millis (pinMode dataPin PinMode.INPUT w)).2 fuel rfl (Nat.le_refl _) (Nat.zero_le _) rfl
    hhigh hpace (fun j hj => by
      have := hperiod j (by simpa using hj)
      simpa using this) hfuel
  refine ⟨w', ?_, ha, hb, hc⟩
  rw [waitForResultSHT_eq, hw']
  rfl

theorem elapsedAfter_demoWorld (script : List Bool) (j : Nat) :
    elapsedAfter (demoWorld script) j = 10 * j := by
  simp [elapsedAfter, demoWorld, Nat.mul_comm]

/-- Witness of C8: the data line stays HIGH and every `delay(10)` takes exactly
10 ms. -/
theorem waitForResultSHT_timeout_witness :
    ∃ w', waitForResultSHT 101 2 (demoWorld []) = some (false, w') ∧
      (demoWorld []).reads + 1 ≤ w'.reads ∧ w'.reads ≤ (demoWorld []).reads + 101 ∧
      (demoWorld []).now + 1000 < w'.now :=
  waitForResultSHT_timeout 2 (demoWorld []) 101 (fun _ => rfl) (fun _ => Nat.le_refl 10)
    (fun j _ => by rw [elapsedAfter_demoWorld]; rw [elapsedAfter_demoWorld] at *; omega)
    (Nat.le_refl 101)

set_option maxRecDepth 100000 in
/-- The hypothesis of C8 on the period of the counter cannot be dropped: when
the 101st `delay` takes `2^32 - 1000` ms, the elapsed time computed on the
32-bit count is 0 after 101 polls, and the wait takes 202 samples. -/
theorem waitForResultSHT_long_delay :
    (waitForResultSHT 202 2 longDelayWorld).map (fun r => (r.1, r.2.reads, r.2.now))
      = some (false, 202, 2 ^ 32 + 1010) := by
  decide

set_option maxRecDepth 100000 in
/-- Witness of C6: a sensor that never acknowledges, and a sensor that
acknowledges and then never signals that the result is ready. -/
theorem failed_handshake_stops_witness :
    ((sendCommandSHT 3 2 3 (demoWorld [])).1 = false ∧
      (sendCommandSHT 3 2 3 (demoWorld [])).2.reads = 1) ∧
    (readRawData demoHeader 101 ShtCommand.MeasureTemperature 2 3 (demoWorld [])
        = some (65535, (sendCommandSHT 3 2 3 (demoWorld [])).2) ∧
      (sendCommandSHT 3 2 3 (demoWorld [])).2.reads ≤ 2) ∧
    readRawData demoHeader 101 ShtCommand.MeasureTemperature 2 3 (demoWorld [false, true])
        = some (65535, worldAfter
            (waitForResultSHT 101 2 (sendCommandSHT 3 2 3 (demoWorld [false, true])).2)
            (demoWorld [])) :=
  ⟨(failed_handshake_stops demoHeader 101 ShtCommand.MeasureTemperature 2 3
      (demoWorld [])).1 rfl,
    (failed_handshake_stops demoHeader 101 ShtCommand.MeasureTemperature 2 3
      (demoWorld [])).2.1 (by decide),
    (failed_handshake_stops demoHeader 101 ShtCommand.MeasureTemperature 2 3
      (demoWorld [false, true])).2.2 _ (by decide)
      (eq_some_worldAfter _ false _ (by decide))⟩


theorem readTemperatureC_nan (hdr : Header) (fuel : Nat) (dev : Device) (w w' : World)
    (h : readTemperatureC hdr fuel dev w = some (Flt.NAN, w')) :
    readRawData hdr fuel ShtCommand.MeasureTemperature dev._dataPin dev._clockPin w
      = some (hdr.kRawDataError, w') := by
  rcases hr : readRawData hdr fuel ShtCommand.MeasureTemperature dev._dataPin dev._clockPin w
    with _ | ⟨raw, w1⟩
  · unfold readTemperatureC at h
    simp only [hr] at h
    exact Option.noConfusion h
  · rw [readTemperatureC_of_raw hdr fuel dev w w1 raw hr] at h
    by_cases hk : raw = hdr.kRawDataError
    · rw [if_pos hk] at h
      rw [hk, (Prod.mk.inj (Option.some.inj h)).2]
    · rw [if_neg hk] at h
      exact Flt.noConfusion (Prod.mk.inj (Option.some.inj h)).1

theorem readTemperatureF_nan (hdr : Header) (fuel : Nat) (dev : Device) (w w' : World)
    (h : readTemperatureF hdr fuel dev w = some (Flt.NAN, w')) :
    readRawData hdr fuel ShtCommand.MeasureTemperature dev._dataPin dev._clockPin w
      = some (hdr.kRawDataError, w') := by
  rcases hr : readRawData hdr fuel ShtCommand.MeasureTemperature dev._dataPin dev._clockPin w
    with _ | ⟨raw, w1⟩
  · unfold readTemperatureF at h
    simp only [hr] at h
    exact Option.noConfusion h
  · rw [readTemperatureF_of_raw hdr fuel dev w w1 raw hr] at h
    by_cases hk : raw = hdr.kRawDataError
    · rw [if_pos hk] at h
      rw [hk, (Prod.mk.inj (Option.some.inj h)).2]
    · rw [if_neg hk] at h
      exact Flt.noConfusion (Prod.mk.inj (Option.some.inj h)).1

theorem readHumidity_nan (hdr : Header) (fuel : Nat) (dev : Device) (w w' : World)
    (h : readHumidity hdr fuel dev w = some (Flt.NAN, w')) :
    readRawData hdr fuel ShtCommand.MeasureRelativeHumidity dev._dataPin dev._clockPin w
        = some (hdr.kRawDataError, w') ∨
      ∃ Rh w1,
        readRawData hdr fuel ShtCommand.MeasureRelativeHumidity dev._dataPin dev._clockPin w
          = some (Rh, w1) ∧ Rh ≠ hdr.kRawDataError ∧
        readRawData hdr fuel ShtCommand.MeasureTemperature dev._dataPin dev._clockPin w1
          = some (hdr.kRawDataError, w') := by
  rcases hr : readRawData hdr fuel ShtCommand.MeasureRelativeHumidity dev._dataPin
    dev._clockPin w with _ | ⟨Rh, w1⟩
  · unfold readHumidity at h
    simp only [hr] at h
    exact Option.noConfusion h
  · by_cases hk : Rh = hdr.kRawDataError
    · subst hk
      rw [readHumidity_of_sentinel hdr fuel dev w w1 hr] at h
      rw [(Prod.mk.inj (Option.some.inj h)).2]
      exact Or.inl rfl
    · refine Or.inr ⟨Rh, w1, rfl, hk, ?_⟩
      rcases ht : readRawData hdr fuel ShtCommand.MeasureTemperature dev._dataPin
        dev._clockPin w1 with _ | ⟨Rt, w2⟩
      · unfold readHumidity readTemperatureC at h
        simp only [hr, if_neg hk, ht] at h
        exact Option.noConfusion h
      · rw [readHumidity_of_raw hdr fuel dev w w1 w2 Rh Rt hr hk ht] at h
        by_cases hkt : Rt = hdr.kRawDataError
        · rw [if_pos hkt] at h
          rw [hkt, (Prod.mk.inj (Option.some.inj h)).2]
        · rw [if_neg hkt] at h
          exact Flt.noConfusion (Prod.mk.inj (Option.some.inj h)).1

/-- Counterexample to C5: with the sentinel `0xFFFF`, a sensor that
acknowledges the command, signals that the result is ready and then shifts out
sixteen HIGH bits: the command is acknowledged, the wait reports ready,
`readRawData` returns the sentinel and `readTemperatureC` returns `NAN`. -/
theorem sentinel_collision :
    (sendCommandSHT (demoHeader.commandCode ShtCommand.MeasureTemperature) 2 3
        (demoWorld scriptOnes)).1 = true ∧
    (waitForResultSHT 5 2
        (sendCommandSHT (demoHeader.commandCode ShtCommand.MeasureTemperature) 2 3
          (demoWorld scriptOnes)).2).map Prod.fst = some true ∧
    (readRawData demoHeader 5 ShtCommand.MeasureTemperature 2 3
        (demoWorld scriptOnes)).map Prod.fst = some demoHeader.kRawDataError ∧
    (readTemperatureC demoHeader 5 demoDevice (demoWorld scriptOnes)).map Prod.fst
      = some Flt.NAN := by
  decide

/-- **C5**, amended. When `sendCommandSHT` succeeds and `waitForResultSHT`
reports ready, `readRawData` returns the 16-bit word the sensor shifts out,
whatever it is. `readRawData` yields `kRawDataError` only when the command is
not acknowledged, the wait times out, or the sensor shifts out the sixteen bits
of `kRawDataError`; and a public read returns `NAN` only when a raw read it
performs yields `kRawDataError`. -/
theorem sentinel_only_by_failure_or_collision (hdr : Header) (fuel : Nat) (dev : Device)
    (w : World) :
    (∀ command w2,
        (sendCommandSHT (hdr.commandCode command) dev._dataPin dev._clockPin w).1 = true →
        waitForResultSHT fuel dev._dataPin
          (sendCommandSHT (hdr.commandCode command) dev._dataPin dev._clockPin w).2
            = some (true, w2) →
        readRawData hdr fuel command dev._dataPin dev._clockPin w =
          some (∑ i in Finset.range 16,
              (if w2.sensor (w2.reads + i) then 1 else 0) * 2 ^ (15 - i),
            skipCrcSHT dev._dataPin dev._clockPin
              (getData16SHT dev._dataPin dev._clockPin w2).2)) ∧
    (∀ command w',
        readRawData hdr fuel command dev._dataPin dev._clockPin w
          = some (hdr.kRawDataError, w') →
        (sendCommandSHT (hdr.commandCode command) dev._dataPin dev._clockPin w).1 = false ∨
        (waitForResultSHT fuel dev._dataPin
          (sendCommandSHT (hdr.commandCode command) dev._dataPin dev._clockPin w).2).map
            Prod.fst = some false ∨
        ∃ w2, waitForResultSHT fuel dev._dataPin
            (sendCommandSHT (hdr.commandCode command) dev._dataPin dev._clockPin w).2
              = some (true, w2) ∧
          ∑ i in Finset.range 16, (if w2.sensor (w2.reads + i) then 1 else 0) * 2 ^ (15 - i)
            = hdr.kRawDataError) ∧
    (∀ w', readTemperatureC hdr fuel dev w = some (Flt.NAN, w') →
        readRawData hdr fuel ShtCommand.MeasureTemperature dev._dataPin dev._clockPin w
          = some (hdr.kRawDataError, w')) ∧
    (∀ w', readTemperatureF hdr fuel dev w = some (Flt.NAN, w') →
        readRawData hdr fuel ShtCommand.MeasureTemperature dev._dataPin dev._clockPin w
          = some (hdr.kRawDataError, w')) ∧
    (∀ w', readHumidity hdr fuel dev w = some (Flt.NAN, w') →
        readRawData hdr fuel ShtCommand.MeasureRelativeHumidity dev._dataPin dev._clockPin w
            = some (hdr.kRawDataError, w') ∨
          ∃ Rh w1,
            readRawData hdr fuel ShtCommand.MeasureRelativeHumidity dev._dataPin
              dev._clockPin w = some (Rh, w1) ∧ Rh ≠ hdr.kRawDataError ∧
            readRawData hdr fuel ShtCommand.MeasureTemperature dev._dataPin dev._clockPin w1
              = some (hdr.kRawDataError, w')) := by
  refine ⟨fun command w2 hs hw => ?_, fun command w' h => ?_,
    fun w' h => readTemperatureC_nan hdr fuel dev w w' h,
    fun w' h => readTemperatureF_nan hdr fuel dev w w' h,
    fun w' h => readHumidity_nan hdr fuel dev w w' h⟩
  · rw [readRawData_of_send_true hdr fuel _ _ _ w hs, hw]
    show some ((getData16SHT dev._dataPin dev._clockPin w2).1, _) = _
    rw [(getData16SHT_spec dev._dataPin dev._clockPin w2).1]
    rfl
  · rcases hs : (sendCommandSHT (hdr.commandCode command) dev._dataPin dev._clockPin w).1
    · exact Or.inl rfl
    · rw [readRawData_of_send_true hdr fuel _ _ _ w hs] at h
      rcases hw : waitForResultSHT fuel dev._dataPin
        (sendCommandSHT (hdr.commandCode command) dev._dataPin dev._clockPin w).2
        with _ | ⟨b, w2⟩
      · rw [hw] at h
        exact Option.noConfusion h
      · cases b
        · exact Or.inr (Or.inl rfl)
        · rw [hw] at h
          refine Or.inr (Or.inr ⟨w2, rfl, ?_⟩)
          have e : (getData16SHT dev._dataPin dev._clockPin w2).1 = hdr.kRawDataError :=
            (Prod.mk.inj (Option.some.inj h)).1
          rw [(getData16SHT_spec dev._dataPin dev._clockPin w2).1] at e
          exact e

/-- Witness of C5 amended: a sensor that shifts out `0x1234` after a good
handshake, for the first part; the sensor of the counterexample, which shifts
out sixteen HIGH bits, for the second and third parts. -/
theorem sentinel_only_by_failure_or_collision_witness :
    readRawData demoHeader 5 ShtCommand.MeasureTemperature 2 3 (demoWorld scriptWord) =
      some (∑ i in Finset.range 16,
          (if demoReady.sensor (demoReady.reads + i) then 1 else 0) * 2 ^ (15 - i),
        skipCrcSHT 2 3 (getData16SHT 2 3 demoReady).2) ∧
    readRawData demoHeader 5 ShtCommand.MeasureTemperature 2 3 (demoWorld scriptOnes)
      = some (65535, worldAfter (readTemperatureC demoHeader 5 demoDevice
          (demoWorld scriptOnes)) (demoWorld [])) :=
  ⟨(sentinel_only_by_failure_or_collision demoHeader 5 demoDevice (demoWorld scriptWord)).1
      ShtCommand.MeasureTemperature demoReady (by decide)
      (eq_some_worldAfter _ true (demoWorld []) (by decide)),
    (sentinel_only_by_failure_or_collision demoHeader 5 demoDevice
      (demoWorld scriptOnes)).2.2.1 _ (eq_some_worldAfter _ Flt.NAN _ (by decide))⟩


theorem ite_mod_two (n : Nat) : (if n % 2 = 1 then 1 else 0) = n % 2 := by
  split <;> omega

theorem word16_wordWorld (R : Nat) (hR : R < 65536) : word16 (wordWorld R).sensor 3 = R := by
  simp only [word16, Finset.sum_range_succ, Finset.sum_range_zero, Nat.reduceAdd, Nat.zero_add,
    Nat.add_zero]
  simp only [wordWorld, Nat.reduceEqDiff, if_false, OfNat.ofNat_ne_zero, OfNat.ofNat_ne_one,
    Nat.reduceSub, Nat.reducePow, decide_eq_true_eq, ite_mod_two, Nat.div_one]
  have hR' : R / 32768 < 2 := by omega
  rw [show R / 32768 = R / 16384 / 2 from by rw [Nat.div_div_eq_div_mul]]
  rw [show R / 16384 = R / 8192 / 2 from by rw [Nat.div_div_eq_div_mul]]
  rw [show R / 8192 = R / 4096 / 2 from by rw [Nat.div_div_eq_div_mul]]
  rw [show R / 4096 = R / 2048 / 2 from by rw [Nat.div_div_eq_div_mul]]
  rw [show R / 2048 = R / 1024 / 2 from by rw [Nat.div_div_eq_div_mul]]
  rw [show R / 1024 = R / 512 / 2 from by rw [Nat.div_div_eq_div_mul]]
  rw [show R / 512 = R / 256 / 2 from by rw [Nat.div_div_eq_div_mul]]
  rw [show R / 256 = R / 128 / 2 from by rw [Nat.div_div_eq_div_mul]]
  rw [show R / 128 = R / 64 / 2 from by rw [Nat.div_div_eq_div_mul]]
  rw [show R / 64 = R / 32 / 2 from by rw [Nat.div_div_eq_div_mul]]
  rw [show R / 32 = R / 16 / 2 from by rw [Nat.div_div_eq_div_mul]]
  rw [show R / 16 = R / 8 / 2 from by rw [Nat.div_div_eq_div_mul]]
  rw [show R / 8 = R / 4 / 2 from by rw [Nat.div_div_eq_div_mul]]
  rw [show R / 4 = R / 2 / 2 from by rw [Nat.div_div_eq_div_mul]]
  rw [show R / 32768 = R / 16384 / 2 from by rw [Nat.div_div_eq_div_mul]] at hR'
  omega

theorem readRawData_wordWorld (hdr : Header) (fuel : Nat) (command : ShtCommand)
    (dataPin clockPin R : Nat) (hR : R < 65536) (hf : 2 ≤ fuel) :
    ∃ w', readRawData hdr fuel command dataPin clockPin (wordWorld R) = some (R, w') := by
  obtain ⟨w', h, _⟩ := readRawData_ready hdr fuel command dataPin clockPin (wordWorld R)
    rfl rfl rfl hf
  refine ⟨w', ?_⟩
  rw [h]
  show some (word16 (wordWorld R).sensor 3, w') = _
  rw [word16_wordWorld R hR]

/-- Every 16-bit value of the sentinel is the word of a successful exchange:
the counterexample to C5 does not depend on the value `0xFFFF`. -/
theorem sentinel_reachable (hdr : Header) (fuel : Nat) (command : ShtCommand)
    (dataPin clockPin : Nat) (hk : hdr.kRawDataError < 65536) (hf : 2 ≤ fuel) :
    (sendCommandSHT (hdr.commandCode command) dataPin clockPin
        (wordWorld hdr.kRawDataError)).1 = true ∧
      (∃ w2, waitForResultSHT fuel dataPin
        (sendCommandSHT (hdr.commandCode command) dataPin clockPin
          (wordWorld hdr.kRawDataError)).2 = some (true, w2)) ∧
      ∃ w', readRawData hdr fuel command dataPin clockPin (wordWorld hdr.kRawDataError)
        = some (hdr.kRawDataError, w') := by
  obtain ⟨e1, e2⟩ := sendCommandSHT_spec (hdr.commandCode command) dataPin clockPin
    (wordWorld hdr.kRawDataError)
  refine ⟨e2, ?_, readRawData_wordWorld hdr fuel command dataPin clockPin _ hk hf⟩
  obtain ⟨w2, hw2, _⟩ := waitForResultSHT_ready fuel dataPin
    (sendCommandSHT (hdr.commandCode command) dataPin clockPin
      (wordWorld hdr.kRawDataError)).2
    (by
      have a1 : (sendCommandSHT (hdr.commandCode command) dataPin clockPin
        (wordWorld hdr.kRawDataError)).2.sensor = _ := congrArg Env.sensor e1
      have a2 : (sendCommandSHT (hdr.commandCode command) dataPin clockPin
        (wordWorld hdr.kRawDataError)).2.reads = _ := congrArg Env.reads e1
      rw [a1, a2]
      rfl) hf
  exact ⟨w2, hw2⟩


/-- **C9** Fahrenheit conversion. When the temperature exchange returns a code
`R` other than the sentinel, `readTemperatureF` returns `D1F(v) + D2F(r) * R`,
with `D1F = [-40.2, -39.6, -39.5, -39.42, -39.3, -38.9]` indexed by the voltage
ordinal and `D2F = [0.018, 0.072]` indexed by the resolution ordinal. -/
theorem readTemperatureF_affine (hdr : Header) (fuel : Nat) (dev : Device) (w w' : World)
    (R : Nat)
    (h : readRawData hdr fuel ShtCommand.MeasureTemperature dev._dataPin dev._clockPin w
      = some (R, w'))
    (hR : R ≠ hdr.kRawDataError) :
    readTemperatureF hdr fuel dev w =
      some (Flt.num
        (([-40.2, -39.6, -39.5, -39.42, -39.3, -38.9] : List ℚ).getD dev._voltage.toUInt8 0
          + ([0.018, 0.072] : List ℚ).getD dev._tempResolution.toUInt8 0 * R), w') := by
  have e := readTemperatureF_of_raw hdr fuel dev w w' R h
  rw [if_neg hR] at e
  exact e

/-- Witness of C9: the sensor answers the temperature exchange with `0x1234`;
third voltage class, 14 bits. -/
theorem readTemperatureF_affine_witness :
    readTemperatureF demoHeader 5 demoDevice (demoWorld scriptWord) =
      some (Flt.num (([-40.2, -39.6, -39.5, -39.42, -39.3, -38.9] : List ℚ).getD 2 0
          + ([0.018, 0.072] : List ℚ).getD 0 0 * (4660 : Nat)),
        worldAfter (readRawData demoHeader 5 ShtCommand.MeasureTemperature 2 3
          (demoWorld scriptWord)) (demoWorld [])) :=
  readTemperatureF_affine demoHeader 5 demoDevice (demoWorld scriptWord) _ 4660
    (eq_some_worldAfter _ 4660 _ (by decide)) (by decide)

theorem temperature_pair_of_raw (hdr : Header) (fuel : Nat) (dev : Device) (w w' : World)
    (R : Nat)
    (h : readRawData hdr fuel ShtCommand.MeasureTemperature dev._dataPin dev._clockPin w
      = some (R, w'))
    (hR : R ≠ hdr.kRawDataError) :
    readTemperatureC hdr fuel dev w
        = some (Flt.num (getD1ForC dev._voltage + getD2ForC dev._tempResolution * R), w') ∧
      readTemperatureF hdr fuel dev w
        = some (Flt.num (getD1ForF dev._voltage + getD2ForF dev._tempResolution * R), w') := by
  have e1 := readTemperatureC_of_raw hdr fuel dev w w' R h
  have e2 := readTemperatureF_of_raw hdr fuel dev w w' R h
  rw [if_neg hR] at e1 e2
  exact ⟨e1, e2⟩

theorem exists_readable_code (hdr : Header) :
    ∃ R : Nat, R ≠ hdr.kRawDataError ∧ (R = 0 ∨ R = 1) ∧
      ∀ dataPin clockPin, ∃ w', readRawData hdr 5 ShtCommand.MeasureTemperature dataPin clockPin
        (wordWorld R) = some (R, w') := by
  by_cases hk : hdr.kRawDataError = 0
  · exact ⟨1, by omega, Or.inr rfl, fun d c =>
      readRawData_wordWorld hdr 5 _ d c 1 (by decide) (by decide)⟩
  · exact ⟨0, fun h => hk h.symm, Or.inl rfl, fun d c =>
      readRawData_wordWorld hdr 5 _ d c 0 (by decide) (by decide)⟩

/-- **C10** The Fahrenheit result is not an affine transform of the Celsius
result. There are no constants `a`, `b` with `readTemperatureF = a *
readTemperatureC + b` on every device and every world where both return a
number; and on the third voltage class at 14 bits no pair of results satisfies
the standard conversion `F = 9/5 * C + 32`. -/
theorem fahrenheit_not_affine_in_celsius (hdr : Header) :
    (¬ ∃ a b : ℚ, ∀ (fuel : Nat) (dev : Device) (w w1 w2 : World) (c f : ℚ),
        readTemperatureC hdr fuel dev w = some (Flt.num c, w1) →
        readTemperatureF hdr fuel dev w = some (Flt.num f, w2) → f = a * c + b) ∧
    (∀ (fuel : Nat) (dev : Device) (w w1 w2 : World) (c f : ℚ),
        dev._voltage = Voltage.level2 →
        dev._tempResolution = TemperatureMeasurementResolution.Temperature_14bit →
        readTemperatureC hdr fuel dev w = some (Flt.num c, w1) →
        readTemperatureF hdr fuel dev w = some (Flt.num f, w2) → f ≠ 9 / 5 * c + 32) := by
  constructor
  · rintro ⟨a, b, hab⟩
    obtain ⟨R, hRk, hR01, hread⟩ := exists_readable_code hdr
    obtain ⟨w', hw'⟩ := hread 2 3
    have p0 := temperature_pair_of_raw hdr 5 (Device.new 2 3 Voltage.level0) (wordWorld R) w' R
      hw' hRk
    have p1 := temperature_pair_of_raw hdr 5 (Device.new 2 3 Voltage.level1) (wordWorld R) w' R
      hw' hRk
    have p2 := temperature_pair_of_raw hdr 5 (Device.new 2 3 Voltage.level2) (wordWorld R) w' R
      hw' hRk
    have q0 := hab 5 _ _ _ _ _ _ p0.1 p0.2
    have q1 := hab 5 _ _ _ _ _ _ p1.1 p1.2
    have q2 := hab 5 _ _ _ _ _ _ p2.1 p2.2
    simp only [Device.new, getD1ForC, getD1ForF, getD2ForC, getD2ForF, Voltage.toUInt8,
      TemperatureMeasurementResolution.toUInt8, List.getD_cons_zero, List.getD_cons_succ]
      at q0 q1 q2
    rcases hR01 with rfl | rfl
    · norm_num at q0 q1 q2
      linarith
    · norm_num at q0 q1 q2
      linarith
  · intro fuel dev w w1 w2 c f hv hr hc hf
    rcases hraw : readRawData hdr fuel ShtCommand.MeasureTemperature dev._dataPin
      dev._clockPin w with _ | ⟨R, w'⟩
    · unfold readTemperatureC at hc
      simp only [hraw] at hc
      exact Option.noConfusion hc
    · rw [readTemperatureC_of_raw hdr fuel dev w w' R hraw] at hc
      rw [readTemperatureF_of_raw hdr fuel dev w w' R hraw] at hf
      by_cases hk : R = hdr.kRawDataError
      · rw [if_pos hk] at hc
        exact Flt.noConfusion (Prod.mk.inj (Option.some.inj hc)).1
      · rw [if_neg hk] at hc hf
        have ec : getD1ForC dev._voltage + getD2ForC dev._tempResolution * R = c :=
          Flt.num.inj (Prod.mk.inj (Option.some.inj hc)).1
        have ef : getD1ForF dev._voltage + getD2ForF dev._tempResolution * R = f :=
          Flt.num.inj (Prod.mk.inj (Option.some.inj hf)).1
        rw [hv, hr] at ec ef
        simp only [getD1ForC, getD1ForF, getD2ForC, getD2ForF, Voltage.toUInt8,
          TemperatureMeasurementResolution.toUInt8, List.getD_cons_zero, List.getD_cons_succ]
          at ec ef
        intro h
        rw [← ec, ← ef] at h
        norm_num at h
        linarith

/-- Witness of C10: the sensor answers the temperature exchange with `0x1234`;
the results are `6.9` and `44.38`, and `9/5 * 6.9 + 32 = 44.42`. -/
theorem fahrenheit_not_affine_in_celsius_witness :
    (-39.5 + 0.018 * (4660 : Nat) : ℚ) ≠ 9 / 5 * (-39.7 + 0.01 * (4660 : Nat)) + 32 :=
  (fahrenheit_not_affine_in_celsius demoHeader).2 5 demoDevice (demoWorld scriptWord)
    (worldAfter (readRawData demoHeader 5 ShtCommand.MeasureTemperature 2 3
      (demoWorld scriptWord)) (demoWorld []))
    (worldAfter (readRawData demoHeader 5 ShtCommand.MeasureTemperature 2 3
      (demoWorld scriptWord)) (demoWorld []))
    _ _ rfl rfl
    ((temperature_pair_of_raw demoHeader 5 demoDevice (demoWorld scriptWord) _ 4660
      (eq_some_worldAfter _ 4660 _ (by decide)) (by decide)).1)
    ((temperature_pair_of_raw demoHeader 5 demoDevice (demoWorld scriptWord) _ 4660
      (eq_some_worldAfter _ 4660 _ (by decide)) (by decide)).2)

/-! ## Traces of the operations -/

theorem newEvents_of_append (w w' : World) (ev : List Event) (h : w'.trace = w.trace ++ ev) :
    newEvents w w' = ev := by
  unfold newEvents
  rw [h]
  exact List.drop_left' rfl

theorem trace_pinMode (pin : Nat) (mode : PinMode) (w : World) :
    (pinMode pin mode w).trace = w.trace ++ [Event.pinMode pin mode] := rfl

theorem trace_digitalWrite (pin val : Nat) (w : World) :
    (digitalWrite pin val w).trace = w.trace ++ [Event.digitalWrite pin val] := rfl

theorem trace_delayMicroseconds (us : Nat) (w : World) :
    (delayMicroseconds us w).trace = w.trace ++ [Event.delayMicroseconds us] := rfl

theorem trace_controlDataPin (dataPin val : Nat) (w : World) :
    (controlDataPin dataPin val w).trace = w.trace ++ dataLineEvents dataPin val := by
  unfold controlDataPin dataLineEvents
  split
  · rfl
  · simp [pinMode, digitalWrite]

theorem trace_commandBitLoop (command dataPin clockPin : Nat) :
    ∀ (n i : Nat) (w : World),
      (forLoop (fun i w =>
        let w := controlDataPin dataPin (commandBit command i) w
        let w := digitalWrite clockPin HIGH w
        let w := delayMicroseconds 1 w
        let w := digitalWrite clockPin LOW w
        delayMicroseconds 1 w) n i w).trace
        = w.trace ++ commandBitEvents command dataPin clockPin n i
  | 0, _, w => by simp [forLoop, commandBitEvents]
  | n + 1, i, w => by
    rw [forLoop, trace_commandBitLoop command dataPin clockPin n (i + 1)]
    simp only [commandBitEvents, trace_delayMicroseconds, trace_digitalWrite,
      trace_controlDataPin, List.append_assoc, List.cons_append, List.nil_append]

theorem trace_sendCommandSHT_upToAck (command dataPin clockPin : Nat) (w : World) :
    (sendCommandSHT_upToAck command dataPin clockPin w).trace =
      w.trace ++ transmissionStart dataPin clockPin
        ++ commandBitEvents command dataPin clockPin 8 0
        ++ [Event.pinMode dataPin PinMode.INPUT, Event.digitalWrite clockPin HIGH,
            Event.delayMicroseconds 1] := by
  unfold sendCommandSHT_upToAck
  simp only [trace_delayMicroseconds, trace_digitalWrite, trace_pinMode]
  rw [trace_commandBitLoop]
  simp only [trace_delayMicroseconds, trace_digitalWrite, trace_pinMode, trace_controlDataPin,
    dataLineEvents, transmissionStart]
  simp

theorem trace_sendCommandSHT (command dataPin clockPin : Nat) (w : World) :
    (sendCommandSHT command dataPin clockPin w).2.trace =
      w.trace ++ transmissionStart dataPin clockPin
        ++ commandBitEvents command dataPin clockPin 8 0
        ++ ackEvents dataPin clockPin (w.sensor w.reads) (w.sensor (w.reads + 1)) := by
  rw [sendCommandSHT_eq]
  have ht := trace_sendCommandSHT_upToAck command dataPin clockPin w
  have h := env_sendCommandSHT_upToAck command dataPin clockPin w
  generalize sendCommandSHT_upToAck command dataPin clockPin w = p at *
  simp only [World.env, Env.mk.injEq] at h
  obtain ⟨h1, h2, h3, h4, h5⟩ := h
  cases ha : w.sensor w.reads <;> cases hb : w.sensor (w.reads + 1) <;>
    simp [digitalRead, digitalWrite, delayMicroseconds, ackEvents, h1, h2, ht, ha, hb]

theorem trace_shiftInLoop (dataPin clockPin : Nat) :
    ∀ (n i byte : Nat) (w : World),
      (forLoop (shiftInBit dataPin clockPin) n i (byte, w)).2.trace
        = w.trace ++ sampleEvents dataPin clockPin w.sensor n w.reads
  | 0, _, _, w => by simp [forLoop, sampleEvents]
  | n + 1, i, byte, w => by
    have ih := trace_shiftInLoop dataPin clockPin n (i + 1)
      (shiftInBit dataPin clockPin i (byte, w)).1 (shiftInBit dataPin clockPin i (byte, w)).2
    refine ih.trans ?_
    have e1 : (shiftInBit dataPin clockPin i (byte, w)).2.sensor = w.sensor := rfl
    have e2 : (shiftInBit dataPin clockPin i (byte, w)).2.reads = w.reads + 1 := rfl
    have e3 : (shiftInBit dataPin clockPin i (byte, w)).2.trace = w.trace ++
        [Event.digitalWrite clockPin HIGH, Event.delayMicroseconds 1,
         Event.digitalRead dataPin (if w.sensor w.reads then HIGH else LOW),
         Event.digitalWrite clockPin LOW, Event.delayMicroseconds 1] := by
      simp [shiftInBit, digitalRead, digitalWrite, delayMicroseconds]
    rw [e1, e2, e3, sampleEvents, List.append_assoc]

theorem trace_getData16SHT (dataPin clockPin : Nat) (w : World) :
    (getData16SHT dataPin clockPin w).2.trace =
      w.trace ++ sampleEvents dataPin clockPin w.sensor 8 w.reads
        ++ interByteEvents dataPin clockPin
        ++ sampleEvents dataPin clockPin w.sensor 8 (w.reads + 8) := by
  obtain ⟨_, a2⟩ := forLoop_shiftInBit dataPin clockPin 8 0 0 w
  have a3 := trace_shiftInLoop dataPin clockPin 8 0 0 w
  generalize hp : forLoop (shiftInBit dataPin clockPin) 8 0 (0, w) = p at a2 a3
  have hq : (pinMode dataPin PinMode.INPUT (digitalWrite clockPin LOW (delayMicroseconds 1
      (digitalWrite clockPin HIGH (controlDataPin dataPin LOW p.2))))).env = p.2.env := by
    simp only [env_pinMode, env_digitalWrite, env_delayMicroseconds, env_controlDataPin]
  have hr : (pinMode dataPin PinMode.INPUT (digitalWrite clockPin LOW (delayMicroseconds 1
      (digitalWrite clockPin HIGH (controlDataPin dataPin LOW p.2))))).trace
      = p.2.trace ++ interByteEvents dataPin clockPin := by
    simp [trace_pinMode, trace_digitalWrite, trace_delayMicroseconds, trace_controlDataPin,
      dataLineEvents, interByteEvents]
  generalize hm : pinMode dataPin PinMode.INPUT (digitalWrite clockPin LOW (delayMicroseconds 1
      (digitalWrite clockPin HIGH (controlDataPin dataPin LOW p.2)))) = m at hq hr
  have b3 := trace_shiftInLoop dataPin clockPin 8 0 0 m
  have e : getData16SHT dataPin clockPin w =
      (((p.1 <<< 8) ||| (forLoop (shiftInBit dataPin clockPin) 8 0 (0, m)).1) % 65536,
        (forLoop (shiftInBit dataPin clockPin) 8 0 (0, m)).2) := by
    unfold getData16SHT
    simp only [hp, hm]
  rw [a2] at hq
  simp only [World.env, Env.mk.injEq] at hq
  obtain ⟨h1, h2, _, _, _⟩ := hq
  rw [e]
  show (forLoop (shiftInBit dataPin clockPin) 8 0 (0, m)).2.trace = _
  rw [b3, hr, a3, h1, h2]

theorem trace_skipCrcSHT (dataPin clockPin : Nat) (w : World) :
    (skipCrcSHT dataPin clockPin w).trace = w.trace ++ skipCrcEvents dataPin clockPin := by
  simp [skipCrcSHT, skipCrcEvents, trace_digitalWrite, trace_controlDataPin, dataLineEvents]

theorem trace_pollStep (dataPin : Nat) (w : World) :
    (pollStep dataPin w).trace = w.trace ++
      [Event.delay 10, Event.digitalRead dataPin (if w.sensor w.reads then HIGH else LOW),
       Event.millis ((w.now + w.pace w.delays) % 2 ^ 32)] := by
  simp [pollStep, millis, digitalRead, delay]

theorem trace_waitLoop (dataPin startWait : Nat) :
    ∀ (fuel ack : Nat) (w wf : World) (a : Nat),
      waitLoop dataPin startWait fuel ack w = some (a, wf) →
      ∃ polls, wf.trace = w.trace ++ polls ∧ ∀ e ∈ polls, isPollEvent dataPin e = true
  | 0, _, _, _, _ => fun h => Option.noConfusion h
  | fuel + 1, ack, w, wf, a => by
    intro h
    by_cases hack : ack = HIGH
    · subst hack
      rw [waitLoop_succ] at h
      have hstep : ∀ e ∈ [Event.delay 10,
          Event.digitalRead dataPin (if w.sensor w.reads then HIGH else LOW),
          Event.millis ((w.now + w.pace w.delays) % 2 ^ 32)], isPollEvent dataPin e = true := by
        intro e he
        simp only [List.mem_cons, List.mem_singleton, List.not_mem_nil, or_false] at he
        rcases he with rfl | rfl | rfl <;> simp [isPollEvent]
      split at h
      · have e := (Prod.mk.inj (Option.some.inj h)).2
        rw [← e]
        exact ⟨_, trace_pollStep dataPin w, hstep⟩
      · obtain ⟨polls, hp, hall⟩ := trace_waitLoop dataPin startWait fuel _ _ wf a h
        refine ⟨[Event.delay 10,
          Event.digitalRead dataPin (if w.sensor w.reads then HIGH else LOW),
          Event.millis ((w.now + w.pace w.delays) % 2 ^ 32)] ++ polls, ?_, ?_⟩
        · rw [hp, trace_pollStep, List.append_assoc]
        · intro e he
          rcases List.mem_append.mp he with h1 | h1
          · exact hstep e h1
          · exact hall e h1
    · rw [waitLoop, if_neg hack] at h
      have e := (Prod.mk.inj (Option.some.inj h)).2
      rw [← e]
      exact ⟨[], (List.append_nil _).symm, fun e he => absurd he (List.not_mem_nil e)⟩

theorem frame_waitLoop (dataPin startWait : Nat) :
    ∀ (fuel ack : Nat) (w wf : World) (a : Nat),
      waitLoop dataPin startWait fuel ack w = some (a, wf) →
      wf.sensor = w.sensor ∧ wf.pace = w.pace ∧ w.reads ≤ wf.reads
  | 0, _, _, _, _ => fun h => Option.noConfusion h
  | fuel + 1, ack, w, wf, a => by
    intro h
    by_cases hack : ack = HIGH
    · subst hack
      rw [waitLoop_succ] at h
      split at h
      · have e := (Prod.mk.inj (Option.some.inj h)).2
        rw [← e]
        exact ⟨rfl, rfl, Nat.le_succ _⟩
      · obtain ⟨h1, h2, h3⟩ := frame_waitLoop dataPin startWait fuel _ _ wf a h
        exact ⟨h1, h2, Nat.le_trans (Nat.le_succ _) h3⟩
    · rw [waitLoop, if_neg hack] at h
      have e := (Prod.mk.inj (Option.some.inj h)).2
      rw [← e]
      exact ⟨rfl, rfl, Nat.le_refl _⟩

theorem frame_waitForResultSHT (fuel dataPin : Nat) (w wf : World) (b : Bool)
    (h : waitForResultSHT fuel dataPin w = some (b, wf)) :
    wf.sensor = w.sensor ∧ wf.pace = w.pace ∧ w.reads ≤ wf.reads := by
  rw [waitForResultSHT_eq] at h
  rcases hl : waitLoop dataPin (w.now % 2 ^ 32) fuel HIGH
      (millis (pinMode dataPin PinMode.INPUT w)).2 with _ | ⟨a, w1⟩
  · rw [hl] at h
    exact Option.noConfusion h
  · rw [hl] at h
    have e : w1 = wf := (Prod.mk.inj (Option.some.inj h)).2
    subst e
    exact frame_waitLoop dataPin _ fuel HIGH (millis (pinMode dataPin PinMode.INPUT w)).2 w1 a hl

theorem trace_waitForResultSHT (fuel dataPin : Nat) (w wf : World) (b : Bool)
    (h : waitForResultSHT fuel dataPin w = some (b, wf)) :
    ∃ polls, wf.trace = w.trace ++
        [Event.pinMode dataPin PinMode.INPUT, Event.millis (w.now % 2 ^ 32)] ++ polls ∧
      ∀ e ∈ polls, isPollEvent dataPin e = true := by
  rw [waitForResultSHT_eq] at h
  rcases hl : waitLoop dataPin (w.now % 2 ^ 32) fuel HIGH
      (millis (pinMode dataPin PinMode.INPUT w)).2 with _ | ⟨a, w1⟩
  · rw [hl] at h
    exact Option.noConfusion h
  · rw [hl] at h
    have e : w1 = wf := (Prod.mk.inj (Option.some.inj h)).2
    subst e
    obtain ⟨polls, hp, hall⟩ := trace_waitLoop dataPin _ fuel HIGH _ w1 a hl
    refine ⟨polls, ?_, hall⟩
    rw [hp]
    simp [millis, pinMode]

/-- The events of a transaction of `readRawData`: those of `sendCommandSHT`,
followed, when the command is acknowledged, by those of `waitForResultSHT`
and, when the result is ready, by those of `getData16SHT` and `skipCrcSHT`. -/
theorem trace_readRawData (hdr : Header) (fuel : Nat) (command : ShtCommand)
    (dataPin clockPin : Nat) (w wf : World) (R : Nat)
    (h : readRawData hdr fuel command dataPin clockPin w = some (R, wf)) :
    ((w.sensor w.reads = true ∨ w.sensor (w.reads + 1) = false) ∧
      newEvents w wf = transmissionStart dataPin clockPin
        ++ commandBitEvents (hdr.commandCode command) dataPin clockPin 8 0
        ++ ackEvents dataPin clockPin (w.sensor w.reads) (w.sensor (w.reads + 1))) ∨
    (w.sensor w.reads = false ∧ w.sensor (w.reads + 1) = true ∧
      ∃ polls, (∀ e ∈ polls, isPollEvent dataPin e = true) ∧
        (newEvents w wf = transmissionStart dataPin clockPin
            ++ commandBitEvents (hdr.commandCode command) dataPin clockPin 8 0
            ++ ackEvents dataPin clockPin false true
            ++ [Event.pinMode dataPin PinMode.INPUT, Event.millis (w.now % 2 ^ 32)] ++ polls ∨
          ∃ r, newEvents w wf = transmissionStart dataPin clockPin
            ++ commandBitEvents (hdr.commandCode command) dataPin clockPin 8 0
            ++ ackEvents dataPin clockPin false true
            ++ [Event.pinMode dataPin PinMode.INPUT, Event.millis (w.now % 2 ^ 32)] ++ polls
            ++ sampleEvents dataPin clockPin w.sensor 8 r
            ++ interByteEvents dataPin clockPin
            ++ sampleEvents dataPin clockPin w.sensor 8 (r + 8)
            ++ skipCrcEvents dataPin clockPin)) := by
  obtain ⟨e1, e2⟩ := sendCommandSHT_spec (hdr.commandCode command) dataPin clockPin w
  have ht := trace_sendCommandSHT (hdr.commandCode command) dataPin clockPin w
  rcases hs : (sendCommandSHT (hdr.commandCode command) dataPin clockPin w).1
  · left
    rw [readRawData_of_send_false hdr fuel _ _ _ w hs] at h
    have e : (sendCommandSHT (hdr.commandCode command) dataPin clockPin w).2 = wf :=
      (Prod.mk.inj (Option.some.inj h)).2
    rw [hs] at e2
    constructor
    · cases ha : w.sensor w.reads
      · right
        rw [ha] at e2
        simpa using e2.symm
      · left; rfl
    · apply newEvents_of_append
      rw [← e, ht]
      simp only [List.append_assoc]
  · right
    rw [hs] at e2
    have hs0 : w.sensor w.reads = false := by
      cases ha : w.sensor w.reads
      · rfl
      · rw [ha] at e2; simp at e2
    have hs1 : w.sensor (w.reads + 1) = true := by
      rw [hs0] at e2; simpa using e2.symm
    refine ⟨hs0, hs1, ?_⟩
    rw [hs0, hs1] at ht
    rw [readRawData_of_send_true hdr fuel _ _ _ w hs] at h
    have hnow : (sendCommandSHT (hdr.commandCode command) dataPin clockPin w).2.now = w.now :=
      congrArg Env.now e1
    have hsen : (sendCommandSHT (hdr.commandCode command) dataPin clockPin w).2.sensor
        = w.sensor := congrArg Env.sensor e1
    generalize (sendCommandSHT (hdr.commandCode command) dataPin clockPin w).2 = w1 at *
    rcases hw : waitForResultSHT fuel dataPin w1 with _ | ⟨b, w2⟩
    · rw [hw] at h
      exact Option.noConfusion h
    · obtain ⟨polls, hp, hall⟩ := trace_waitForResultSHT fuel dataPin w1 w2 b hw
      refine ⟨polls, hall, ?_⟩
      rw [hw] at h
      rw [ht, hnow] at hp
      cases b
      · left
        have e : w2 = wf := (Prod.mk.inj (Option.some.inj h)).2
        subst e
        apply newEvents_of_append
        rw [hp]
        simp only [List.append_assoc]
      · right
        have e : skipCrcSHT dataPin clockPin (getData16SHT dataPin clockPin w2).2 = wf :=
          (Prod.mk.inj (Option.some.inj h)).2
        have hsen2 : w2.sensor = w.sensor :=
          (frame_waitForResultSHT fuel dataPin w1 w2 true hw).1.trans hsen
        refine ⟨w2.reads, ?_⟩
        apply newEvents_of_append
        rw [← e, trace_skipCrcSHT, trace_getData16SHT, hp, hsen2]
        simp only [List.append_assoc]

theorem commandBit_eq_testBit (command i : Nat) (hc : command < 256) :
    commandBit command i = if command.testBit (7 - i) then 1 else 0 := by
  unfold commandBit
  rw [Nat.mod_eq_of_lt hc, Nat.one_shiftLeft, Nat.and_two_pow]
  cases command.testBit (7 - i) <;> simp

theorem commandBitEvents_eq (command dataPin clockPin : Nat) (hc : command < 256) :
    commandBitEvents command dataPin clockPin 8 0 =
      (List.range 8).flatMap (fun i =>
        (if command.testBit (7 - i) then [Event.pinMode dataPin PinMode.INPUT_PULLUP]
         else [Event.digitalWrite dataPin LOW, Event.pinMode dataPin PinMode.OUTPUT]) ++
        [Event.digitalWrite clockPin HIGH, Event.delayMicroseconds 1,
         Event.digitalWrite clockPin LOW, Event.delayMicroseconds 1]) := by
  have hd : ∀ i, dataLineEvents dataPin (commandBit command i) =
      if command.testBit (7 - i) then [Event.pinMode dataPin PinMode.INPUT_PULLUP]
      else [Event.digitalWrite dataPin LOW, Event.pinMode dataPin PinMode.OUTPUT] := by
    intro i
    rw [commandBit_eq_testBit command i hc]
    unfold dataLineEvents
    cases command.testBit (7 - i) <;> simp
  simp only [commandBitEvents, hd]
  simp [List.range, List.range.loop, List.flatMap]

theorem sampleEvents_eq (dataPin clockPin : Nat) (sensor : Nat → Bool) (r : Nat) :
    sampleEvents dataPin clockPin sensor 8 r =
      (List.range 8).flatMap (fun i =>
        [Event.digitalWrite clockPin HIGH, Event.delayMicroseconds 1,
         Event.digitalRead dataPin (if sensor (r + i) then HIGH else LOW),
         Event.digitalWrite clockPin LOW, Event.delayMicroseconds 1]) := by
  simp [sampleEvents, List.range, List.range.loop, List.flatMap, Nat.add_assoc]

/-- **C11** Acknowledgment check. After the transmission start and the eight
command pulses, `sendCommandSHT` makes the data pin an input, raises the clock
for the ninth pulse and samples the data line; if the sample is HIGH it returns
`false` at once, having taken that one sample; otherwise it lowers the clock
and samples again. It returns `true` if and only if the first sample is LOW
and the second is HIGH. -/
theorem sendCommandSHT_ack_check (command dataPin clockPin : Nat) (w : World) :
    ((sendCommandSHT command dataPin clockPin w).1 = true ↔
        (w.sensor w.reads = false ∧ w.sensor (w.reads + 1) = true)) ∧
    (sendCommandSHT command dataPin clockPin w).2.trace =
        w.trace ++ transmissionStart dataPin clockPin
          ++ commandBitEvents command dataPin clockPin 8 0
          ++ [Event.pinMode dataPin PinMode.INPUT, Event.digitalWrite clockPin HIGH,
              Event.delayMicroseconds 1]
          ++ (if w.sensor w.reads then [Event.digitalRead dataPin HIGH]
              else [Event.digitalRead dataPin LOW, Event.digitalWrite clockPin LOW,
                Event.delayMicroseconds 10,
                Event.digitalRead dataPin (if w.sensor (w.reads + 1) then HIGH else LOW)]) ∧
    (w.sensor w.reads = true →
        (sendCommandSHT command dataPin clockPin w).1 = false ∧
        (sendCommandSHT command dataPin clockPin w).2.reads = w.reads + 1) := by
  obtain ⟨e1, e2⟩ := sendCommandSHT_spec command dataPin clockPin w
  have er : (sendCommandSHT command dataPin clockPin w).2.reads
      = if w.sensor w.reads then w.reads + 1 else w.reads + 2 := congrArg Env.reads e1
  refine ⟨?_, ?_, fun h => ?_⟩
  · rw [e2]
    cases w.sensor w.reads <;> cases w.sensor (w.reads + 1) <;> simp
  · rw [trace_sendCommandSHT, ackEvents]
    simp only [List.append_assoc]
  · rw [e2, er, h]
    exact ⟨rfl, rfl⟩

/-- Witness of C11: a sensor that leaves the data line HIGH. -/
theorem sendCommandSHT_ack_check_witness :
    (sendCommandSHT 3 2 3 (demoWorld [])).1 = false ∧
      (sendCommandSHT 3 2 3 (demoWorld [])).2.reads = (demoWorld []).reads + 1 :=
  (sendCommandSHT_ack_check 3 2 3 (demoWorld [])).2.2 rfl

/-- **C12** Command bits go out MSB-first. For an 8-bit command code, the events
of `sendCommandSHT` after the transmission start are eight rounds, round `i`
setting the data line to bit `7 - i` of the code (released to the pull-up for
1, driven low for 0) and then pulsing the clock HIGH then LOW; the next event
makes the data pin an input for the acknowledgment. -/
theorem command_bits_msb_first (command dataPin clockPin : Nat) (w : World)
    (hc : command < 256) :
    ∃ rest, (sendCommandSHT command dataPin clockPin w).2.trace =
      w.trace ++ transmissionStart dataPin clockPin
        ++ (List.range 8).flatMap (fun i =>
            (if command.testBit (7 - i) then [Event.pinMode dataPin PinMode.INPUT_PULLUP]
             else [Event.digitalWrite dataPin LOW, Event.pinMode dataPin PinMode.OUTPUT]) ++
            [Event.digitalWrite clockPin HIGH, Event.delayMicroseconds 1,
             Event.digitalWrite clockPin LOW, Event.delayMicroseconds 1])
        ++ Event.pinMode dataPin PinMode.INPUT :: rest := by
  refine ⟨[Event.digitalWrite clockPin HIGH, Event.delayMicroseconds 1] ++
    (if w.sensor w.reads then [Event.digitalRead dataPin HIGH]
     else [Event.digitalRead dataPin LOW, Event.digitalWrite clockPin LOW,
       Event.delayMicroseconds 10,
       Event.digitalRead dataPin (if w.sensor (w.reads + 1) then HIGH else LOW)]), ?_⟩
  rw [trace_sendCommandSHT, commandBitEvents_eq command dataPin clockPin hc, ackEvents]
  simp only [List.append_assoc, List.cons_append, List.nil_append]

/-- Witness of C12: the command code 3. -/
theorem command_bits_msb_first_witness :
    ∃ rest, (sendCommandSHT 3 2 3 (demoWorld [])).2.trace =
      (demoWorld []).trace ++ transmissionStart 2 3
        ++ (List.range 8).flatMap (fun i =>
            (if Nat.testBit 3 (7 - i) then [Event.pinMode 2 PinMode.INPUT_PULLUP]
             else [Event.digitalWrite 2 LOW, Event.pinMode 2 PinMode.OUTPUT]) ++
            [Event.digitalWrite 3 HIGH, Event.delayMicroseconds 1,
             Event.digitalWrite 3 LOW, Event.delayMicroseconds 1])
        ++ Event.pinMode 2 PinMode.INPUT :: rest :=
  command_bits_msb_first 3 2 3 (demoWorld []) (by decide)

/-- **C14** Fixed transmission-start pattern. Whatever the command and the
sensor, the events of `sendCommandSHT` begin with: clock pin made an output,
data line released, clock HIGH, data line driven low, clock LOW, clock HIGH,
data line released, clock LOW, with the delays in between; the command bits
and the acknowledgment samples come after them. Without the delays, the first
nine pin events are those of this pattern. -/
theorem transmission_start_fixed (command dataPin clockPin : Nat) (w : World) :
    (sendCommandSHT command dataPin clockPin w).2.trace =
        w.trace ++
          [Event.pinMode clockPin PinMode.OUTPUT,
           Event.pinMode dataPin PinMode.INPUT_PULLUP, Event.delayMicroseconds 1,
           Event.digitalWrite clockPin HIGH,
           Event.digitalWrite dataPin LOW, Event.pinMode dataPin PinMode.OUTPUT,
           Event.delayMicroseconds 1,
           Event.digitalWrite clockPin LOW, Event.delayMicroseconds 1,
           Event.digitalWrite clockPin HIGH,
           Event.pinMode dataPin PinMode.INPUT_PULLUP, Event.delayMicroseconds 1,
           Event.digitalWrite clockPin LOW, Event.delayMicroseconds 1]
          ++ commandBitEvents command dataPin clockPin 8 0
          ++ ackEvents dataPin clockPin (w.sensor w.reads) (w.sensor (w.reads + 1)) ∧
      ((newEvents w (sendCommandSHT command dataPin clockPin w).2).filter isPinEvent).take 9 =
        [Event.pinMode clockPin PinMode.OUTPUT,
         Event.pinMode dataPin PinMode.INPUT_PULLUP,
         Event.digitalWrite clockPin HIGH,
         Event.digitalWrite dataPin LOW, Event.pinMode dataPin PinMode.OUTPUT,
         Event.digitalWrite clockPin LOW,
         Event.digitalWrite clockPin HIGH,
         Event.pinMode dataPin PinMode.INPUT_PULLUP,
         Event.digitalWrite clockPin LOW] := by
  have ht := trace_sendCommandSHT command dataPin clockPin w
  refine ⟨ht, ?_⟩
  rw [newEvents_of_append w _ _ (by rw [ht, List.append_assoc, List.append_assoc])]
  simp [transmissionStart, isPinEvent, List.filter_cons]

theorem count_sampleEvents (dataPin clockPin : Nat) (sensor : Nat → Bool) :
    ∀ n r, (sampleEvents dataPin clockPin sensor n r).count (Event.digitalWrite clockPin HIGH) = n ∧
      (sampleEvents dataPin clockPin sensor n r).countP isSample = n
  | 0, _ => ⟨rfl, rfl⟩
  | n + 1, r => by
    obtain ⟨h1, h2⟩ := count_sampleEvents dataPin clockPin sensor n (r + 1)
    rw [sampleEvents, List.count_append, List.countP_append, h1, h2]
    constructor
    · have : [Event.digitalWrite clockPin HIGH, Event.delayMicroseconds 1,
          Event.digitalRead dataPin (if sensor r then HIGH else LOW),
          Event.digitalWrite clockPin LOW, Event.delayMicroseconds 1].count
          (Event.digitalWrite clockPin HIGH) = 1 := by
        simp only [List.count_cons, List.count_nil, beq_iff_eq, Event.digitalWrite.injEq,
          reduceCtorEq, if_false, if_true, true_and, and_true, and_false]
      rw [this, Nat.add_comm]
    · have : [Event.digitalWrite clockPin HIGH, Event.delayMicroseconds 1,
          Event.digitalRead dataPin (if sensor r then HIGH else LOW),
          Event.digitalWrite clockPin LOW, Event.delayMicroseconds 1].countP isSample = 1 := rfl
      rw [this, Nat.add_comm]

/-- **C15** Inter-byte acknowledgment. The events of `getData16SHT` are eight
clock pulses with a sample of the data line while the clock is HIGH, then the
data line driven low, a ninth clock pulse without a sample, the data pin made
an input again, and eight more pulses with a sample: 17 pulses and 16 samples,
the samples being the next sixteen levels of the sensor script. -/
theorem getData16SHT_pulses (dataPin clockPin : Nat) (w : World) :
    (getData16SHT dataPin clockPin w).2.trace =
        w.trace
          ++ (List.range 8).flatMap (fun i =>
              [Event.digitalWrite clockPin HIGH, Event.delayMicroseconds 1,
               Event.digitalRead dataPin (if w.sensor (w.reads + i) then HIGH else LOW),
               Event.digitalWrite clockPin LOW, Event.delayMicroseconds 1])
          ++ [Event.digitalWrite dataPin LOW, Event.pinMode dataPin PinMode.OUTPUT,
              Event.digitalWrite clockPin HIGH, Event.delayMicroseconds 1,
              Event.digitalWrite clockPin LOW, Event.pinMode dataPin PinMode.INPUT]
          ++ (List.range 8).flatMap (fun i =>
              [Event.digitalWrite clockPin HIGH, Event.delayMicroseconds 1,
               Event.digitalRead dataPin (if w.sensor (w.reads + 8 + i) then HIGH else LOW),
               Event.digitalWrite clockPin LOW, Event.delayMicroseconds 1]) ∧
      (newEvents w (getData16SHT dataPin clockPin w).2).count
        (Event.digitalWrite clockPin HIGH) = 17 ∧
      (newEvents w (getData16SHT dataPin clockPin w).2).countP isSample = 16 ∧
      (getData16SHT dataPin clockPin w).2.reads = w.reads + 16 := by
  have ht := trace_getData16SHT dataPin clockPin w
  have hn := newEvents_of_append w _ _
    (by rw [ht, List.append_assoc, List.append_assoc] :
      (getData16SHT dataPin clockPin w).2.trace = w.trace ++ _)
  refine ⟨?_, ?_, ?_, congrArg Env.reads (getData16SHT_spec dataPin clockPin w).2⟩
  · rw [ht, sampleEvents_eq, sampleEvents_eq]
    rfl
  · rw [hn, List.count_append, List.count_append,
      (count_sampleEvents dataPin clockPin w.sensor 8 w.reads).1,
      (count_sampleEvents dataPin clockPin w.sensor 8 (w.reads + 8)).1]
    have : (interByteEvents dataPin clockPin).count (Event.digitalWrite clockPin HIGH) = 1 := by
      simp only [interByteEvents, List.count_cons, List.count_nil, beq_iff_eq,
        Event.digitalWrite.injEq, reduceCtorEq, if_false, if_true, true_and, and_true, and_false]
    rw [this]
  · rw [hn, List.countP_append, List.countP_append,
      (count_sampleEvents dataPin clockPin w.sensor 8 w.reads).2,
      (count_sampleEvents dataPin clockPin w.sensor 8 (w.reads + 8)).2]
    rfl

/-! ## The mode of the data pin at the samples -/

theorem modeAfter_append (pin : Nat) :
    ∀ (a b : List Event) (m : Option PinMode),
      modeAfter pin m (a ++ b) = modeAfter pin (modeAfter pin m a) b
  | [], _, _ => rfl
  | e :: es, b, m => by
    cases e <;> simp only [List.cons_append, modeAfter] <;> exact modeAfter_append pin es b _

theorem sampleModes_append (pin : Nat) :
    ∀ (a b : List Event) (m : Option PinMode),
      sampleModes pin m (a ++ b) = sampleModes pin m a ++ sampleModes pin (modeAfter pin m a) b
  | [], _, _ => rfl
  | e :: es, b, m => by
    cases e with
    | digitalRead p v =>
      simp only [List.cons_append, sampleModes, modeAfter]
      split
      · exact congrArg (List.cons m) (sampleModes_append pin es b m)
      · exact sampleModes_append pin es b m
    | _ => simp only [List.cons_append, sampleModes, modeAfter]; exact sampleModes_append pin es b _

theorem sampleModes_dataLineEvents (pin val : Nat) (m : Option PinMode) :
    sampleModes pin m (dataLineEvents pin val) = [] := by
  unfold dataLineEvents
  split <;> rfl

theorem sampleModes_transmissionStart (dataPin clockPin : Nat) (m : Option PinMode) :
    sampleModes dataPin m (transmissionStart dataPin clockPin) = [] := rfl

theorem sampleModes_commandBitEvents (command dataPin clockPin : Nat) :
    ∀ (n i : Nat) (m : Option PinMode),
      sampleModes dataPin m (commandBitEvents command dataPin clockPin n i) = []
  | 0, _, _ => rfl
  | n + 1, i, m => by
    rw [commandBitEvents, sampleModes_append, sampleModes_append, sampleModes_dataLineEvents,
      sampleModes_commandBitEvents command dataPin clockPin n (i + 1)]
    rfl

theorem sampleModes_ackEvents (dataPin clockPin : Nat) (s0 s1 : Bool) (m : Option PinMode) :
    (∀ x ∈ sampleModes dataPin m (ackEvents dataPin clockPin s0 s1), x = some PinMode.INPUT) ∧
      modeAfter dataPin m (ackEvents dataPin clockPin s0 s1) = some PinMode.INPUT := by
  cases s0 <;> cases s1 <;> simp [ackEvents, sampleModes, modeAfter]

theorem sampleModes_polls (dataPin : Nat) :
    ∀ polls : List Event, (∀ e ∈ polls, isPollEvent dataPin e = true) →
      (∀ x ∈ sampleModes dataPin (some PinMode.INPUT) polls, x = some PinMode.INPUT) ∧
        modeAfter dataPin (some PinMode.INPUT) polls = some PinMode.INPUT
  | [], _ => ⟨fun x hx => absurd hx (List.not_mem_nil x), rfl⟩
  | e :: es, h => by
    have he := h e (List.mem_cons_self e es)
    obtain ⟨ih1, ih2⟩ := sampleModes_polls dataPin es
      (fun e' he' => h e' (List.mem_cons_of_mem e he'))
    cases e with
    | digitalRead p v =>
      refine ⟨?_, ih2⟩
      simp only [sampleModes]
      split
      · intro x hx
        rcases List.mem_cons.mp hx with rfl | hx'
        · rfl
        · exact ih1 x hx'
      · exact ih1
    | pinMode p v => exact absurd he (by simp [isPollEvent])
    | digitalWrite p v => exact absurd he (by simp [isPollEvent])
    | delayMicroseconds u => exact absurd he (by simp [isPollEvent])
    | delay u => exact ⟨ih1, ih2⟩
    | millis u => exact ⟨ih1, ih2⟩

theorem sampleModes_sampleEvents (dataPin clockPin : Nat) (sensor : Nat → Bool)
    (m : Option PinMode) :
    ∀ n r, (∀ x ∈ sampleModes dataPin m (sampleEvents dataPin clockPin sensor n r), x = m) ∧
      modeAfter dataPin m (sampleEvents dataPin clockPin sensor n r) = m
  | 0, _ => ⟨fun x hx => absurd hx (List.not_mem_nil x), rfl⟩
  | n + 1, r => by
    obtain ⟨ih1, ih2⟩ := sampleModes_sampleEvents dataPin clockPin sensor m n (r + 1)
    refine ⟨?_, ?_⟩
    · intro x hx
      simp only [sampleEvents, List.cons_append, List.nil_append, sampleModes, if_true]
        at hx
      rcases List.mem_cons.mp hx with rfl | hx'
      · rfl
      · exact ih1 x hx'
    · simp only [sampleEvents, List.cons_append, List.nil_append, modeAfter]
      exact ih2

theorem sampleModes_interByteEvents (dataPin clockPin : Nat) (m : Option PinMode) :
    sampleModes dataPin m (interByteEvents dataPin clockPin) = [] ∧
      modeAfter dataPin m (interByteEvents dataPin clockPin) = some PinMode.INPUT := by
  simp [interByteEvents, sampleModes, modeAfter]

theorem sampleModes_skipCrcEvents (dataPin clockPin : Nat) (m : Option PinMode) :
    sampleModes dataPin m (skipCrcEvents dataPin clockPin) = [] := rfl

theorem sampleModes_readRawData (hdr : Header) (fuel : Nat) (command : ShtCommand)
    (dataPin clockPin : Nat) (w wf : World) (R : Nat) (init : Option PinMode)
    (h : readRawData hdr fuel command dataPin clockPin w = some (R, wf)) :
    ∀ x ∈ sampleModes dataPin init (newEvents w wf), x = some PinMode.INPUT := by
  have hack := fun s0 s1 m => sampleModes_ackEvents dataPin clockPin s0 s1 m
  rcases trace_readRawData hdr fuel command dataPin clockPin w wf R h with
    ⟨_, hev⟩ | ⟨_, _, polls, hall, hev | ⟨r, hev⟩⟩
  · rw [hev]
    simp only [sampleModes_append, sampleModes_transmissionStart, sampleModes_commandBitEvents,
      List.nil_append]
    exact (hack _ _ _).1
  · obtain ⟨p1, p2⟩ := sampleModes_polls dataPin polls hall
    rw [hev]
    simp only [sampleModes_append, modeAfter_append, sampleModes_transmissionStart,
      sampleModes_commandBitEvents, List.nil_append, (hack _ _ _).2]
    intro x hx
    rcases List.mem_append.mp hx with hx | hx
    · rcases List.mem_append.mp hx with hx | hx
      · exact (hack _ _ _).1 x hx
      · simp [sampleModes] at hx
    · have e : modeAfter dataPin (some PinMode.INPUT)
          [Event.pinMode dataPin PinMode.INPUT, Event.millis (w.now % 2 ^ 32)]
          = some PinMode.INPUT := by simp [modeAfter]
      rw [e] at hx
      exact p1 x hx
  · obtain ⟨p1, p2⟩ := sampleModes_polls dataPin polls hall
    have e : modeAfter dataPin (some PinMode.INPUT)
        [Event.pinMode dataPin PinMode.INPUT, Event.millis (w.now % 2 ^ 32)]
        = some PinMode.INPUT := by simp [modeAfter]
    have e' : sampleModes dataPin (some PinMode.INPUT)
        [Event.pinMode dataPin PinMode.INPUT, Event.millis (w.now % 2 ^ 32)] = [] := by
      simp [sampleModes]
    rw [hev]
    simp only [sampleModes_append, modeAfter_append, sampleModes_transmissionStart,
      sampleModes_commandBitEvents, List.nil_append, (hack _ _ _).2, e, e', p2,
      (sampleModes_sampleEvents _ _ _ _ _ _).2, (sampleModes_interByteEvents _ _ _).1,
      (sampleModes_interByteEvents _ _ _).2, sampleModes_skipCrcEvents, List.append_nil]
    intro x hx
    rcases List.mem_append.mp hx with hx | hx
    · rcases List.mem_append.mp hx with hx | hx
      · rcases List.mem_append.mp hx with hx | hx
        · exact (hack _ _ _).1 x hx
        · exact p1 x hx
      · exact (sampleModes_sampleEvents _ _ _ _ _ _).1 x hx
    · exact (sampleModes_sampleEvents _ _ _ _ _ _).1 x hx

set_option maxRecDepth 100000 in
/-- Counterexample to C13: in a transaction that returns the code `0x1234`, the
data line is sampled nineteen times (two acknowledgment samples, one poll,
sixteen data bits), each time with plain `INPUT` as the mode most recently set
on the data pin, never `INPUT_PULLUP`. -/
theorem samples_without_pullup :
    sampleModes 2 none (newEvents (demoWorld scriptWord)
        (worldAfter (readRawData demoHeader 5 ShtCommand.MeasureTemperature 2 3
          (demoWorld scriptWord)) (demoWorld [])))
      = List.replicate 19 (some PinMode.INPUT) := by
  decide

/-- **C13**, amended. In every transaction run by `readRawData`, each time the
driver samples the data line with `digitalRead`, the mode most recently set on
the data pin is plain `INPUT`: never `OUTPUT`, and never `INPUT_PULLUP`. -/
theorem samples_under_plain_input (hdr : Header) (fuel : Nat) (command : ShtCommand)
    (dataPin clockPin : Nat) (w wf : World) (R : Nat) (init : Option PinMode)
    (h : readRawData hdr fuel command dataPin clockPin w = some (R, wf)) :
    ∀ x ∈ sampleModes dataPin init (newEvents w wf), x = some PinMode.INPUT :=
  sampleModes_readRawData hdr fuel command dataPin clockPin w wf R init h

/-- Witness of C13 amended: a transaction that returns the code `0x1234`. -/
theorem samples_under_plain_input_witness :
    (sampleModes 2 none (newEvents (demoWorld scriptWord)
        (worldAfter (readRawData demoHeader 5 ShtCommand.MeasureTemperature 2 3
          (demoWorld scriptWord)) (demoWorld [])))).all
      (fun x => decide (x = some PinMode.INPUT)) = true :=
  List.all_eq_true.mpr (fun x hx => decide_eq_true
    (samples_under_plain_input demoHeader 5 ShtCommand.MeasureTemperature 2 3
      (demoWorld scriptWord) _ 4660 none (eq_some_worldAfter _ 4660 _ (by decide)) x hx))

/-! ## Open-drain discipline -/

theorem openDrain_append (pin : Nat) :
    ∀ (a b : List Event) (prev : Option Event),
      openDrain pin prev a = true → (∀ p, openDrain pin p b = true) →
      openDrain pin prev (a ++ b) = true
  | [], b, prev, _, hb => hb prev
  | e :: es, b, prev, ha, hb => by
    cases e with
    | digitalWrite p v =>
      simp only [List.cons_append, openDrain, Bool.and_eq_true] at ha ⊢
      exact ⟨ha.1, openDrain_append pin es b _ ha.2 hb⟩
    | pinMode p m =>
      cases m <;> simp only [List.cons_append, openDrain, Bool.and_eq_true] at ha ⊢
      · exact openDrain_append pin es b _ ha hb
      · exact ⟨ha.1, openDrain_append pin es b _ ha.2 hb⟩
      · exact openDrain_append pin es b _ ha hb
    | digitalRead p v =>
      simp only [List.cons_append, openDrain] at ha ⊢
      exact openDrain_append pin es b _ ha hb
    | delayMicroseconds u =>
      simp only [List.cons_append, openDrain] at ha ⊢
      exact openDrain_append pin es b _ ha hb
    | delay u =>
      simp only [List.cons_append, openDrain] at ha ⊢
      exact openDrain_append pin es b _ ha hb
    | millis u =>
      simp only [List.cons_append, openDrain] at ha ⊢
      exact openDrain_append pin es b _ ha hb

theorem openDrain_dataLineEvents (pin val : Nat) (prev : Option Event) :
    openDrain pin prev (dataLineEvents pin val) = true := by
  unfold dataLineEvents
  split <;> simp [openDrain]

theorem openDrain_transmissionStart (dataPin clockPin : Nat) (hne : dataPin ≠ clockPin)
    (prev : Option Event) :
    openDrain dataPin prev (transmissionStart dataPin clockPin) = true := by
  have h : clockPin ≠ dataPin := fun e => hne e.symm
  simp [transmissionStart, openDrain, h]

theorem openDrain_commandBitEvents (command dataPin clockPin : Nat) (hne : dataPin ≠ clockPin) :
    ∀ (n i : Nat) (prev : Option Event),
      openDrain dataPin prev (commandBitEvents command dataPin clockPin n i) = true
  | 0, _, _ => rfl
  | n + 1, i, prev => by
    have h : clockPin ≠ dataPin := fun e => hne e.symm
    rw [commandBitEvents]
    refine openDrain_append _ _ _ _ (openDrain_append _ _ _ _
      (openDrain_dataLineEvents dataPin _ prev) (fun p => ?_))
      (openDrain_commandBitEvents command dataPin clockPin hne n (i + 1))
    simp [openDrain, h]

theorem openDrain_ackEvents (dataPin clockPin : Nat) (hne : dataPin ≠ clockPin)
    (s0 s1 : Bool) (prev : Option Event) :
    openDrain dataPin prev (ackEvents dataPin clockPin s0 s1) = true := by
  have h : clockPin ≠ dataPin := fun e => hne e.symm
  cases s0 <;> cases s1 <;> simp [ackEvents, openDrain, h]

theorem openDrain_polls (dataPin : Nat) :
    ∀ (polls : List Event) (prev : Option Event),
      (∀ e ∈ polls, isPollEvent dataPin e = true) → openDrain dataPin prev polls = true
  | [], _, _ => rfl
  | e :: es, prev, h => by
    have he := h e (List.mem_cons_self e es)
    have ih := fun p => openDrain_polls dataPin es p
      (fun e' he' => h e' (List.mem_cons_of_mem e he'))
    cases e with
    | pinMode p v => exact absurd he (by simp [isPollEvent])
    | digitalWrite p v => exact absurd he (by simp [isPollEvent])
    | delayMicroseconds u => exact absurd he (by simp [isPollEvent])
    | digitalRead p v => simp only [openDrain]; exact ih _
    | delay u => simp only [openDrain]; exact ih _
    | millis u => simp only [openDrain]; exact ih _

theorem openDrain_sampleEvents (dataPin clockPin : Nat) (hne : dataPin ≠ clockPin)
    (sensor : Nat → Bool) :
    ∀ (n r : Nat) (prev : Option Event),
      openDrain dataPin prev (sampleEvents dataPin clockPin sensor n r) = true
  | 0, _, _ => rfl
  | n + 1, r, prev => by
    have h : clockPin ≠ dataPin := fun e => hne e.symm
    rw [sampleEvents]
    refine openDrain_append _ _ _ _ ?_
      (openDrain_sampleEvents dataPin clockPin hne sensor n (r + 1))
    simp [openDrain, h]

theorem openDrain_interByteEvents (dataPin clockPin : Nat) (hne : dataPin ≠ clockPin)
    (prev : Option Event) :
    openDrain dataPin prev (interByteEvents dataPin clockPin) = true := by
  have h : clockPin ≠ dataPin := fun e => hne e.symm
  simp [interByteEvents, openDrain, h]

theorem openDrain_skipCrcEvents (dataPin clockPin : Nat) (hne : dataPin ≠ clockPin)
    (prev : Option Event) :
    openDrain dataPin prev (skipCrcEvents dataPin clockPin) = true := by
  have h : clockPin ≠ dataPin := fun e => hne e.symm
  simp [skipCrcEvents, openDrain, h]

theorem openDrain_append_all (pin : Nat) (a b : List Event)
    (ha : ∀ p, openDrain pin p a = true) (hb : ∀ p, openDrain pin p b = true) :
    ∀ p, openDrain pin p (a ++ b) = true :=
  fun p => openDrain_append pin a b p (ha p) hb

theorem openDrain_readRawData (hdr : Header) (fuel : Nat) (command : ShtCommand)
    (dataPin clockPin : Nat) (w wf : World) (R : Nat) (hne : dataPin ≠ clockPin)
    (h : readRawData hdr fuel command dataPin clockPin w = some (R, wf)) :
    ∀ prev, openDrain dataPin prev (newEvents w wf) = true := by
  have hS := openDrain_transmissionStart dataPin clockPin hne
  have hC := openDrain_commandBitEvents (hdr.commandCode command) dataPin clockPin hne 8 0
  have hA := fun s0 s1 => openDrain_ackEvents dataPin clockPin hne s0 s1
  have hH : ∀ p, openDrain dataPin p
      [Event.pinMode dataPin PinMode.INPUT, Event.millis (w.now % 2 ^ 32)] = true := by
    intro p; simp [openDrain]
  rcases trace_readRawData hdr fuel command dataPin clockPin w wf R h with
    ⟨_, hev⟩ | ⟨_, _, polls, hall, hev | ⟨r, hev⟩⟩
  · rw [hev]
    exact openDrain_append_all _ _ _ (openDrain_append_all _ _ _ hS hC) (hA _ _)
  · rw [hev]
    exact openDrain_append_all _ _ _ (openDrain_append_all _ _ _
      (openDrain_append_all _ _ _ (openDrain_append_all _ _ _ hS hC) (hA _ _)) hH)
      (fun p => openDrain_polls dataPin polls p hall)
  · rw [hev]
    exact openDrain_append_all _ _ _ (openDrain_append_all _ _ _
      (openDrain_append_all _ _ _ (openDrain_append_all _ _ _
      (openDrain_append_all _ _ _ (openDrain_append_all _ _ _
      (openDrain_append_all _ _ _ (openDrain_append_all _ _ _ hS hC) (hA _ _)) hH)
      (fun p => openDrain_polls dataPin polls p hall))
      (openDrain_sampleEvents dataPin clockPin hne w.sensor 8 r))
      (openDrain_interByteEvents dataPin clockPin hne))
      (openDrain_sampleEvents dataPin clockPin hne w.sensor 8 (r + 8)))
      (openDrain_skipCrcEvents dataPin clockPin hne)

theorem openDrain_writes_low (pin : Nat) (v : Nat) :
    ∀ (ev : List Event) (prev : Option Event), openDrain pin prev ev = true →
      Event.digitalWrite pin v ∈ ev → v = LOW
  | [], _, _, hm => absurd hm (List.not_mem_nil _)
  | e :: es, prev, h, hm => by
    rcases List.mem_cons.mp hm with heq | hmem
    · subst heq
      simp only [openDrain, Bool.and_eq_true, decide_eq_true_eq] at h
      exact h.1 trivial
    · cases e with
      | digitalWrite p u =>
        simp only [openDrain, Bool.and_eq_true] at h
        exact openDrain_writes_low pin v es _ h.2 hmem
      | pinMode p m =>
        cases m <;> simp only [openDrain, Bool.and_eq_true] at h
        · exact openDrain_writes_low pin v es _ h hmem
        · exact openDrain_writes_low pin v es _ h.2 hmem
        · exact openDrain_writes_low pin v es _ h hmem
      | digitalRead p u => exact openDrain_writes_low pin v es _ h hmem
      | delayMicroseconds u => exact openDrain_writes_low pin v es _ h hmem
      | delay u => exact openDrain_writes_low pin v es _ h hmem
      | millis u => exact openDrain_writes_low pin v es _ h hmem

theorem openDrain_output_after_low (pin : Nat) (b : List Event) :
    ∀ (a : List Event) (prev : Option Event),
      openDrain pin prev (a ++ Event.pinMode pin PinMode.OUTPUT :: b) = true →
      a.getLast?.or prev = some (Event.digitalWrite pin LOW)
  | [], prev, h => by
    simp only [List.nil_append, openDrain, Bool.and_eq_true, decide_eq_true_eq] at h
    simpa using h.1 trivial
  | e :: es, prev, h => by
    have h' : openDrain pin (some e) (es ++ Event.pinMode pin PinMode.OUTPUT :: b) = true := by
      cases e with
      | digitalWrite p u =>
        simp only [List.cons_append, openDrain, Bool.and_eq_true] at h
        exact h.2
      | pinMode p m =>
        cases m <;> simp only [List.cons_append, openDrain, Bool.and_eq_true] at h
        · exact h
        · exact h.2
        · exact h
      | digitalRead p u => exact h
      | delayMicroseconds u => exact h
      | delay u => exact h
      | millis u => exact h
    have ih := openDrain_output_after_low pin b es (some e) h'
    rw [List.getLast?_cons]
    cases hl : es.getLast? with
    | none => rw [hl] at ih; simpa using ih
    | some x => rw [hl] at ih; simpa using ih

/-- **C17** Open-drain discipline on the data line. When the data pin and the
clock pin are different, in every transaction run by `readRawData` every
`digitalWrite` to the data pin writes LOW and every `pinMode(dataPin, OUTPUT)`
comes right after a `digitalWrite(dataPin, LOW)`: the driver never writes HIGH
to the data pin, so that a high level only comes from releasing the pin. -/
theorem open_drain_discipline (hdr : Header) (fuel : Nat) (command : ShtCommand)
    (dataPin clockPin : Nat) (w wf : World) (R : Nat)
    (hne : dataPin ≠ clockPin)
    (h : readRawData hdr fuel command dataPin clockPin w = some (R, wf)) :
    openDrain dataPin none (newEvents w wf) = true ∧
      (∀ v, Event.digitalWrite dataPin v ∈ newEvents w wf → v = LOW) ∧
      (∀ a b, newEvents w wf = a ++ Event.pinMode dataPin PinMode.OUTPUT :: b →
        a.getLast? = some (Event.digitalWrite dataPin LOW)) := by
  have hod := openDrain_readRawData hdr fuel command dataPin clockPin w wf R hne h none
  refine ⟨hod, fun v hv => openDrain_writes_low dataPin v _ none hod hv, fun a b hab => ?_⟩
  rw [hab] at hod
  have := openDrain_output_after_low dataPin b a none hod
  simpa using this

set_option maxRecDepth 100000 in
/-- Witness of C17: a transaction on data pin 2 and clock pin 3 that returns
the code `0x1234`. -/
theorem open_drain_discipline_witness :
    openDrain 2 none (newEvents (demoWorld scriptWord)
        (worldAfter (readRawData demoHeader 5 ShtCommand.MeasureTemperature 2 3
          (demoWorld scriptWord)) (demoWorld []))) = true :=
  (open_drain_discipline demoHeader 5 ShtCommand.MeasureTemperature 2 3
    (demoWorld scriptWord) _ 4660 (by decide) (eq_some_worldAfter _ 4660 _ (by decide))).1

/-! ## The level left on the clock pin -/

theorem lastWrite_append (pin : Nat) :
    ∀ (a b : List Event) (l : Option Nat),
      lastWrite pin l (a ++ b) = lastWrite pin (lastWrite pin l a) b
  | [], _, _ => rfl
  | e :: es, b, l => by
    cases e <;> simp only [List.cons_append, lastWrite] <;> exact lastWrite_append pin es b _

theorem lastWrite_ackEvents (dataPin clockPin : Nat) (s0 s1 : Bool) (l : Option Nat) :
    lastWrite clockPin l (ackEvents dataPin clockPin s0 s1)
      = some (if s0 then HIGH else LOW) := by
  cases s0 <;> cases s1 <;> simp [ackEvents, lastWrite]

theorem lastWrite_polls (dataPin clockPin : Nat) :
    ∀ (polls : List Event) (l : Option Nat),
      (∀ e ∈ polls, isPollEvent dataPin e = true) → lastWrite clockPin l polls = l
  | [], _, _ => rfl
  | e :: es, l, h => by
    have he := h e (List.mem_cons_self e es)
    have ih := lastWrite_polls dataPin clockPin es l
      (fun e' he' => h e' (List.mem_cons_of_mem e he'))
    cases e with
    | pinMode p v => exact absurd he (by simp [isPollEvent])
    | digitalWrite p v => exact absurd he (by simp [isPollEvent])
    | delayMicroseconds u => exact absurd he (by simp [isPollEvent])
    | digitalRead p v => exact ih
    | delay u => exact ih
    | millis u => exact ih

theorem lastWrite_skipCrcEvents (dataPin clockPin : Nat) (l : Option Nat) :
    lastWrite clockPin l (skipCrcEvents dataPin clockPin) = some LOW := by
  simp [skipCrcEvents, lastWrite]

theorem lastWrite_readRawData (hdr : Header) (fuel : Nat) (command : ShtCommand)
    (dataPin clockPin : Nat) (w wf : World) (R : Nat) (l : Option Nat)
    (h : readRawData hdr fuel command dataPin clockPin w = some (R, wf)) :
    lastWrite clockPin l (newEvents w wf) = some (if w.sensor w.reads then HIGH else LOW) := by
  rcases trace_readRawData hdr fuel command dataPin clockPin w wf R h with
    ⟨_, hev⟩ | ⟨hs0, _, polls, hall, hev | ⟨r, hev⟩⟩
  · rw [hev, lastWrite_append, lastWrite_ackEvents]
  · rw [hev, lastWrite_append, lastWrite_append, lastWrite_append, lastWrite_ackEvents,
      lastWrite_polls dataPin clockPin polls _ hall, hs0]
    rfl
  · rw [hev, lastWrite_append, lastWrite_skipCrcEvents, hs0]
    rfl

/-- **C18** The level left on the clock pin. When `readRawData` returns, the
level it has last written to the clock pin is LOW in three of the four
outcomes (second acknowledgment sample wrong, timeout of the wait, valid code)
and HIGH when the first acknowledgment sample is HIGH: `sendCommandSHT` then
returns between raising and lowering the clock of the ninth pulse. -/
theorem clock_level_on_return (hdr : Header) (fuel : Nat) (command : ShtCommand)
    (dataPin clockPin : Nat) (w wf : World) (R : Nat) (l : Option Nat)
    (h : readRawData hdr fuel command dataPin clockPin w = some (R, wf)) :
    lastWrite clockPin l (newEvents w wf) = some (if w.sensor w.reads then HIGH else LOW) :=
  lastWrite_readRawData hdr fuel command dataPin clockPin w wf R l h

/-- Witness of C18, at the failing input: the sensor leaves the data line HIGH,
`readRawData` returns the sentinel and the clock pin is left HIGH. -/
theorem clock_level_on_return_witness :
    lastWrite 3 none (newEvents (demoWorld [])
        (worldAfter (readRawData demoHeader 5 ShtCommand.MeasureTemperature 2 3
          (demoWorld [])) (demoWorld [])))
      = some HIGH :=
  clock_level_on_return demoHeader 5 ShtCommand.MeasureTemperature 2 3 (demoWorld []) _ 65535
    none (eq_some_worldAfter _ 65535 _ (by decide))

set_option maxRecDepth 100000 in
/-- The failing input of C18 evaluated: with a sensor that leaves the data line
HIGH, `readRawData` returns the sentinel, and the last `digitalWrite` to the
clock pin 3 in its trace wrote HIGH. -/
theorem clock_left_high :
    (readRawData demoHeader 5 ShtCommand.MeasureTemperature 2 3 (demoWorld [])).map
        (fun r => (r.1, lastWrite 3 none r.2.trace)) = some (65535, some HIGH) := by
  decide

/-! ## Dependence of a transaction on the sensor script and on the clock -/

theorem pollStep_fields (dataPin : Nat) (w : World) :
    (pollStep dataPin w).sensor = w.sensor ∧ (pollStep dataPin w).reads = w.reads + 1 ∧
      (pollStep dataPin w).now = w.now + w.pace w.delays ∧
      (pollStep dataPin w).pace = w.pace ∧ (pollStep dataPin w).delays = w.delays + 1 :=
  ⟨rfl, rfl, rfl, rfl, rfl⟩

theorem waitLoop_congr_sensor (dataPin startWait : Nat) :
    ∀ (fuel ack : Nat) (w w' wf : World) (a : Nat),
      waitLoop dataPin startWait fuel ack w = some (a, wf) →
      w'.reads = w.reads → w'.now = w.now → w'.pace = w.pace → w'.delays = w.delays →
      (∀ i, w.reads ≤ i → i < wf.reads → w'.sensor i = w.sensor i) →
      ∃ wf', waitLoop dataPin startWait fuel ack w' = some (a, wf') ∧
        wf'.reads = wf.reads ∧ wf'.sensor = w'.sensor
  | 0, _, _, _, _, _ => fun h => Option.noConfusion h
  | fuel + 1, ack, w, w', wf, a => by
    intro h hr hn hp hd hs
    by_cases hack : ack = HIGH
    · subst hack
      have hfr := frame_waitLoop dataPin startWait (fuel + 1) HIGH w wf a h
      rw [waitLoop_succ] at h
      rw [waitLoop_succ, hn, hp, hd, hr]
      have hlt : w.reads < wf.reads := by
        split at h
        · have e := (Prod.mk.inj (Option.some.inj h)).2
          rw [← e]
          exact Nat.lt_succ_self _
        · have := (frame_waitLoop dataPin startWait fuel _ _ wf a h).2.2
          exact Nat.lt_of_lt_of_le (Nat.lt_succ_self _) this
      have hs0 : w'.sensor w.reads = w.sensor w.reads := hs _ (Nat.le_refl _) hlt
      rw [hs0]
      split at h
      · rename_i hc
        rw [if_pos hc]
        have e1 := (Prod.mk.inj (Option.some.inj h)).1
        have e2 := (Prod.mk.inj (Option.some.inj h)).2
        refine ⟨pollStep dataPin w', by rw [e1], ?_, rfl⟩
        rw [← e2]
        show w'.reads + 1 = w.reads + 1
        rw [hr]
      · rename_i hc
        rw [if_neg hc]
        exact waitLoop_congr_sensor dataPin startWait fuel _ (pollStep dataPin w)
          (pollStep dataPin w') wf a h
          (by show w'.reads + 1 = w.reads + 1; rw [hr])
          (by show w'.now + w'.pace w'.delays = w.now + w.pace w.delays; rw [hn, hp, hd])
          hp
          (by show w'.delays + 1 = w.delays + 1; rw [hd])
          (fun i hi1 hi2 => hs i (Nat.le_trans (Nat.le_succ _) hi1) hi2)
    · rw [waitLoop, if_neg hack] at h
      rw [waitLoop, if_neg hack]
      have e1 := (Prod.mk.inj (Option.some.inj h)).1
      have e2 := (Prod.mk.inj (Option.some.inj h)).2
      refine ⟨w', by rw [e1], ?_, rfl⟩
      rw [← e2, hr]

theorem waitForResultSHT_congr_sensor (fuel dataPin : Nat) (w w' wf : World) (b : Bool)
    (h : waitForResultSHT fuel dataPin w = some (b, wf))
    (hr : w'.reads = w.reads) (hn : w'.now = w.now) (hp : w'.pace = w.pace)
    (hd : w'.delays = w.delays)
    (hs : ∀ i, w.reads ≤ i → i < wf.reads → w'.sensor i = w.sensor i) :
    ∃ wf', waitForResultSHT fuel dataPin w' = some (b, wf') ∧
      wf'.reads = wf.reads ∧ wf'.sensor = w'.sensor := by
  rw [waitForResultSHT_eq] at h
  rw [waitForResultSHT_eq, hn]
  rcases hl : waitLoop dataPin (w.now % 2 ^ 32) fuel HIGH
      (millis (pinMode dataPin PinMode.INPUT w)).2 with _ | ⟨a, w1⟩
  · rw [hl] at h
    exact Option.noConfusion h
  · rw [hl] at h
    have e1 : decide (a ≠ HIGH) = b := (Prod.mk.inj (Option.some.inj h)).1
    have e2 : w1 = wf := (Prod.mk.inj (Option.some.inj h)).2
    subst e2
    obtain ⟨wf', hw', h1, h2⟩ := waitLoop_congr_sensor dataPin _ fuel HIGH
      (millis (pinMode dataPin PinMode.INPUT w)).2 (millis (pinMode dataPin PinMode.INPUT w')).2
      w1 a hl hr hn hp hd hs
    refine ⟨wf', ?_, h1, h2⟩
    rw [hw']
    show some (decide (a ≠ HIGH), wf') = _
    rw [e1]

theorem word16_congr (s s' : Nat → Bool) (r : Nat)
    (h : ∀ i, r ≤ i → i < r + 16 → s' i = s i) : word16 s' r = word16 s r := by
  unfold word16
  refine Finset.sum_congr rfl (fun i hi => ?_)
  have hi' : i < 16 := Finset.mem_range.mp hi
  rw [h (r + i) (Nat.le_add_right _ _) (by omega)]

theorem readRawData_congr_sensor (hdr : Header) (fuel : Nat) (command : ShtCommand)
    (dataPin clockPin : Nat) (w wf : World) (sensor' : Nat → Bool) (R : Nat)
    (h : readRawData hdr fuel command dataPin clockPin w = some (R, wf))
    (hs : ∀ i, w.reads ≤ i → i < wf.reads → sensor' i = w.sensor i) :
    ∃ wf', readRawData hdr fuel command dataPin clockPin { w with sensor := sensor' }
        = some (R, wf') ∧ wf'.reads = wf.reads := by
  obtain ⟨e1, e2⟩ := sendCommandSHT_spec (hdr.commandCode command) dataPin clockPin w
  obtain ⟨e1', e2'⟩ := sendCommandSHT_spec (hdr.commandCode command) dataPin clockPin
    { w with sensor := sensor' }
  have hreads : (sendCommandSHT (hdr.commandCode command) dataPin clockPin w).2.reads
      = if w.sensor w.reads then w.reads + 1 else w.reads + 2 := congrArg Env.reads e1
  simp only at e1' e2'
  rcases hsend : (sendCommandSHT (hdr.commandCode command) dataPin clockPin w).1
  · -- the command is not acknowledged
    rw [readRawData_of_send_false hdr fuel _ _ _ w hsend] at h
    have eR := (Prod.mk.inj (Option.some.inj h)).1
    have ew := (Prod.mk.inj (Option.some.inj h)).2
    rw [← ew, hreads] at hs
    have h0 : sensor' w.reads = w.sensor w.reads :=
      hs _ (Nat.le_refl _) (by split <;> omega)
    have h1 : w.sensor w.reads = false → sensor' (w.reads + 1) = w.sensor (w.reads + 1) := by
      intro hf
      exact hs _ (Nat.le_succ _) (by rw [hf]; simp)
    have hsend' : (sendCommandSHT (hdr.commandCode command) dataPin clockPin
        { w with sensor := sensor' }).1 = false := by
      rw [e2', h0, ← hsend, e2]
      cases hf : w.sensor w.reads
      · rw [h1 hf]
      · rfl
    refine ⟨_, by rw [readRawData_of_send_false hdr fuel _ _ _ _ hsend', eR], ?_⟩
    rw [← ew, hreads]
    refine Eq.trans (congrArg Env.reads e1') ?_
    show (if sensor' w.reads = true then w.reads + 1 else w.reads + 2) = _
    rw [h0]
  · -- the command is acknowledged
    rw [hsend] at e2
    have hs0 : w.sensor w.reads = false := by
      cases ha : w.sensor w.reads
      · rfl
      · rw [ha] at e2; simp at e2
    have hs1 : w.sensor (w.reads + 1) = true := by
      rw [hs0] at e2; simpa using e2.symm
    rw [hs0, if_neg (by decide)] at hreads
    rw [readRawData_of_send_true hdr fuel _ _ _ w hsend] at h
    rcases hw : waitForResultSHT fuel dataPin
      (sendCommandSHT (hdr.commandCode command) dataPin clockPin w).2 with _ | ⟨b, w2⟩
    · rw [hw] at h
      exact Option.noConfusion h
    · rw [hw] at h
      have hfr := frame_waitForResultSHT fuel dataPin _ w2 b hw
      rw [hreads] at hfr
      have hle : w2.reads ≤ wf.reads := by
        cases b
        · have ew := (Prod.mk.inj (Option.some.inj h)).2
          rw [← ew]
        · have ew := (Prod.mk.inj (Option.some.inj h)).2
          rw [← ew]
          have := congrArg Env.reads (env_skipCrcSHT dataPin clockPin
            (getData16SHT dataPin clockPin w2).2)
          have hg := congrArg Env.reads (getData16SHT_spec dataPin clockPin w2).2
          simp only [World.env] at this hg
          rw [this, hg]
          exact Nat.le_add_right _ _
      have h0 : sensor' w.reads = false := by
        rw [hs _ (Nat.le_refl _) (by omega), hs0]
      have h1 : sensor' (w.reads + 1) = true := by
        rw [hs _ (Nat.le_succ _) (by omega), hs1]
      have hsend' : (sendCommandSHT (hdr.commandCode command) dataPin clockPin
          { w with sensor := sensor' }).1 = true := by
        rw [e2', h0, h1]; rfl
      rw [h0, if_neg (by decide)] at e1'
      simp only [World.env, Env.mk.injEq] at e1 e1'
      obtain ⟨a1, a2, a3, a4, a5⟩ := e1
      obtain ⟨b1, b2, b3, b4, b5⟩ := e1'
      rw [hs0, if_neg (by decide)] at a2
      obtain ⟨w2', hw2', c1, c2⟩ := waitForResultSHT_congr_sensor fuel dataPin
        (sendCommandSHT (hdr.commandCode command) dataPin clockPin w).2
        (sendCommandSHT (hdr.commandCode command) dataPin clockPin
          { w with sensor := sensor' }).2 w2 b hw
        (by rw [a2, b2]) (by rw [a3, b3]) (by rw [a4, b4]) (by rw [a5, b5])
        (by
          intro i hi1 hi2
          rw [a1, b1]
          rw [a2] at hi1
          exact hs i (by omega) (Nat.lt_of_lt_of_le hi2 hle))
      rw [readRawData_of_send_true hdr fuel _ _ _ _ hsend', hw2']
      cases b
      · have eR := (Prod.mk.inj (Option.some.inj h)).1
        have ew := (Prod.mk.inj (Option.some.inj h)).2
        refine ⟨w2', by rw [eR], ?_⟩
        rw [c1, ← ew]
      · have eR : (getData16SHT dataPin clockPin w2).1 = R :=
          (Prod.mk.inj (Option.some.inj h)).1
        have ew : skipCrcSHT dataPin clockPin (getData16SHT dataPin clockPin w2).2 = wf :=
          (Prod.mk.inj (Option.some.inj h)).2
        have hwf : wf.reads = w2.reads + 16 := by
          rw [← ew]
          have := congrArg Env.reads (env_skipCrcSHT dataPin clockPin
            (getData16SHT dataPin clockPin w2).2)
          have hg := congrArg Env.reads (getData16SHT_spec dataPin clockPin w2).2
          simp only [World.env] at this hg
          rw [this, hg]
        have hwf' : (skipCrcSHT dataPin clockPin (getData16SHT dataPin clockPin w2').2).reads
            = w2'.reads + 16 := by
          have := congrArg Env.reads (env_skipCrcSHT dataPin clockPin
            (getData16SHT dataPin clockPin w2').2)
          have hg := congrArg Env.reads (getData16SHT_spec dataPin clockPin w2').2
          simp only [World.env] at this hg
          rw [this, hg]
        refine ⟨skipCrcSHT dataPin clockPin (getData16SHT dataPin clockPin w2').2, ?_, ?_⟩
        · show some ((getData16SHT dataPin clockPin w2').1, _) = _
          rw [(getData16SHT_spec dataPin clockPin w2').1, ← eR,
            (getData16SHT_spec dataPin clockPin w2).1, c1, c2, b1,
            (frame_waitForResultSHT fuel dataPin _ w2 true hw).1, a1]
          rw [word16_congr w.sensor sensor' w2.reads
            (fun i hi1 hi2 => hs i (by omega) (by omega))]
        · rw [hwf', c1, hwf]

/-- **C16** The CRC byte never influences the result. `skipCrcSHT` releases the
data line, pulses the clock once HIGH then LOW and takes no sample; after a
good handshake the last sample `readRawData` takes is the sixteenth data bit.
So a sensor script that agrees with the script of a transaction on the samples
this transaction takes (acknowledgment, result-ready polls, data bits) gives
the same code, whatever it holds afterwards. -/
theorem crc_never_influences_result (hdr : Header) (fuel : Nat) (command : ShtCommand)
    (dataPin clockPin : Nat) (w wf : World) (R : Nat)
    (h : readRawData hdr fuel command dataPin clockPin w = some (R, wf)) :
    (∀ w0, (skipCrcSHT dataPin clockPin w0).trace = w0.trace ++
        [Event.pinMode dataPin PinMode.INPUT_PULLUP, Event.digitalWrite clockPin HIGH,
         Event.digitalWrite clockPin LOW] ∧
      (skipCrcSHT dataPin clockPin w0).reads = w0.reads) ∧
    (∀ w2, (sendCommandSHT (hdr.commandCode command) dataPin clockPin w).1 = true →
      waitForResultSHT fuel dataPin
        (sendCommandSHT (hdr.commandCode command) dataPin clockPin w).2 = some (true, w2) →
      wf.reads = w2.reads + 16) ∧
    (∀ sensor' : Nat → Bool,
      (∀ i, w.reads ≤ i → i < wf.reads → sensor' i = w.sensor i) →
      ∃ wf', readRawData hdr fuel command dataPin clockPin { w with sensor := sensor' }
        = some (R, wf') ∧ wf'.reads = wf.reads) := by
  refine ⟨fun w0 => ⟨trace_skipCrcSHT dataPin clockPin w0,
      congrArg Env.reads (env_skipCrcSHT dataPin clockPin w0)⟩,
    fun w2 hs hw => ?_,
    fun sensor' hs => readRawData_congr_sensor hdr fuel command dataPin clockPin w wf sensor' R
      h hs⟩
  rw [readRawData_of_send_true hdr fuel _ _ _ w hs, hw] at h
  have ew : skipCrcSHT dataPin clockPin (getData16SHT dataPin clockPin w2).2 = wf :=
    (Prod.mk.inj (Option.some.inj h)).2
  have r1 := congrArg Env.reads (env_skipCrcSHT dataPin clockPin
    (getData16SHT dataPin clockPin w2).2)
  have r2 := congrArg Env.reads (getData16SHT_spec dataPin clockPin w2).2
  simp only [World.env] at r1 r2
  rw [← ew, r1, r2]

/-- Witness of C16: the transaction that returns `0x1234` takes 19 samples; a
script that agrees with it on these and is LOW instead of HIGH afterwards gives
the same code. -/
theorem crc_never_influences_result_witness :
    ∃ wf', readRawData demoHeader 5 ShtCommand.MeasureTemperature 2 3
        { demoWorld scriptWord with sensor := fun i => scriptWord.getD i false }
          = some (4660, wf') ∧
      wf'.reads = (worldAfter (readRawData demoHeader 5 ShtCommand.MeasureTemperature 2 3
        (demoWorld scriptWord)) (demoWorld [])).reads :=
  (crc_never_influences_result demoHeader 5 ShtCommand.MeasureTemperature 2 3
    (demoWorld scriptWord) _ 4660 (eq_some_worldAfter _ 4660 _ (by decide))).2.2
    (fun i => scriptWord.getD i false)
    (fun i _ hi => by
      have h19 : (worldAfter (readRawData demoHeader 5 ShtCommand.MeasureTemperature 2 3
          (demoWorld scriptWord)) (demoWorld [])).reads = 19 := by decide
      rw [h19] at hi
      have : ∀ j, j < 19 → scriptWord.getD j false = scriptWord.getD j true := by decide
      exact this i hi)

theorem waitLoop_shift (dataPin : Nat) :
    ∀ (fuel ack t0 t0' e : Nat) (w w' : World),
      w.now = t0 + e → w'.now = t0' + e → w'.sensor = w.sensor → w'.reads = w.reads →
      w'.pace = w.pace → w'.delays = w.delays →
      (waitLoop dataPin (t0' % 2 ^ 32) fuel ack w').map
          (fun r => (r.1, r.2.reads, r.2.now - t0')) =
        (waitLoop dataPin (t0 % 2 ^ 32) fuel ack w).map
          (fun r => (r.1, r.2.reads, r.2.now - t0))
  | 0, _, _, _, _, _, _ => fun _ _ _ _ _ _ => rfl
  | fuel + 1, ack, t0, t0', e, w, w' => by
    intro hn hn' hs hr hp hd
    by_cases hack : ack = HIGH
    · subst hack
      rw [waitLoop_succ, waitLoop_succ, hs, hr, hp, hd]
      have c1 : ((w.now + w.pace w.delays) % 2 ^ 32 + 2 ^ 32 - t0 % 2 ^ 32) % 2 ^ 32
          = (e + w.pace w.delays) % 2 ^ 32 := by
        rw [hn]; omega
      have c2 : ((w'.now + w.pace w.delays) % 2 ^ 32 + 2 ^ 32 - t0' % 2 ^ 32) % 2 ^ 32
          = (e + w.pace w.delays) % 2 ^ 32 := by
        rw [hn']; omega
      rw [c1, c2]
      split
      · show some (_, (pollStep dataPin w').reads, (pollStep dataPin w').now - t0')
          = some (_, (pollStep dataPin w).reads, (pollStep dataPin w).now - t0)
        have a1 : (pollStep dataPin w').reads = (pollStep dataPin w).reads := by
          show w'.reads + 1 = w.reads + 1
          rw [hr]
        have a2 : (pollStep dataPin w').now - t0' = (pollStep dataPin w).now - t0 := by
          show w'.now + w'.pace w'.delays - t0' = w.now + w.pace w.delays - t0
          rw [hn, hn', hp, hd]; omega
        rw [a1, a2]
      · exact waitLoop_shift dataPin fuel _ t0 t0' (e + w.pace w.delays)
          (pollStep dataPin w) (pollStep dataPin w')
          (by show w.now + w.pace w.delays = _; rw [hn]; omega)
          (by show w'.now + w'.pace w'.delays = _; rw [hn', hp, hd]; omega)
          hs (by show w'.reads + 1 = w.reads + 1; rw [hr]) hp
          (by show w'.delays + 1 = w.delays + 1; rw [hd])
    · rw [waitLoop, if_neg hack, waitLoop, if_neg hack]
      show some (ack, w'.reads, w'.now - t0') = some (ack, w.reads, w.now - t0)
      rw [hr, hn, hn']
      simp

/-- **C19** Wrap-around-safe timeout. With `millis()` a 32-bit counter, the
result of `waitForResultSHT`, the number of samples it takes and the time that
elapses until it returns do not depend on the value `t` of the clock at entry:
they are those of the same world started at any other time, in particular when
the counter wraps during the wait. -/
theorem waitForResultSHT_start_independent (fuel dataPin : Nat) (w : World) (t : Nat) :
    (waitForResultSHT fuel dataPin { w with now := t }).map
        (fun r => (r.1, r.2.reads, r.2.now - t)) =
      (waitForResultSHT fuel dataPin w).map (fun r => (r.1, r.2.reads, r.2.now - w.now)) := by
  rw [waitForResultSHT_eq, waitForResultSHT_eq, Option.map_map, Option.map_map]
  have key := waitLoop_shift dataPin fuel HIGH w.now t 0
    (millis (pinMode dataPin PinMode.INPUT w)).2
    (millis (pinMode dataPin PinMode.INPUT { w with now := t })).2
    rfl rfl rfl rfl rfl rfl
  cases h1 : waitLoop dataPin (t % 2 ^ 32) fuel HIGH
      (millis (pinMode dataPin PinMode.INPUT { w with now := t })).2 <;>
    cases h2 : waitLoop dataPin (w.now % 2 ^ 32) fuel HIGH
      (millis (pinMode dataPin PinMode.INPUT w)).2 <;>
    rw [h1, h2] at key
  · rfl
  · exact Option.noConfusion key
  · exact Option.noConfusion key
  · have k := Option.some.inj key
    simp only [Option.map_some', Function.comp_apply, Option.some.injEq, Prod.mk.injEq] at k ⊢
    obtain ⟨k1, k2, k3⟩ := k
    exact ⟨by rw [k1], k2, k3⟩

set_option maxRecDepth 100000 in
/-- Illustration of C19: a wait that times out, started 500 ms before the
counter wraps, takes 101 samples and 1010 ms, like the same wait started at
time 0. -/
theorem waitForResultSHT_across_wrap :
    (waitForResultSHT 101 2 { demoWorld [] with now := 2 ^ 32 - 500 }).map
        (fun r => (r.1, r.2.reads, r.2.now - (2 ^ 32 - 500))) = some (false, 101, 1010) ∧
      (waitForResultSHT 101 2 (demoWorld [])).map
        (fun r => (r.1, r.2.reads, r.2.now - 0)) = some (false, 101, 1010) := by
  decide

end SHT1x
